import Mathlib

/-!
Verification of the grimoire task-engine library (loathers/grimoire).

This file gives a shallow embedding, in Lean 4, of the parts of the library
that the verified properties speak about:

* the combat-strategy branch compression (`src/combat.ts`, `CompressedMacro`),
* the combat-strategy `clone` operation (`src/combat.ts`), modelled with an
  explicit heap because JavaScript `Map` values are heap references,
* the engine execution pipeline, attempt counters, limit checks, effect
  acquisition and task availability (`src/engine.ts`),
* the outfit equip solver (`src/outfit.ts`).

External collaborators (kolmafia and libram primitives such as `have`,
`canEquip`, `toSlot`, `weaponHands`, `booleanModifier`) are modelled as an
explicit environment record of pure functions.  Failure reason strings from
the source are kept structurally (same branches produce failures in the same
places) but their interpolated item and slot names are abbreviated, since
only the success flag of a result is observable by the stated properties.
-/

namespace Grimoire

/-! ### Association lists with JavaScript `Map` semantics

JavaScript `Map.get` / `Map.set` / `Map.has`: `set` updates an existing key
in place (keeping its position in iteration order) and appends a new key at
the end; iteration follows insertion order. -/

/-- Lookup of a key in an association list (JS `Map.get`). -/
def alGet {α β : Type} [DecidableEq α] : List (α × β) → α → Option β
  | [], _ => none
  | (k, v) :: t, key => if k = key then some v else alGet t key

/-- Update or append of a key (JS `Map.set`): an existing key keeps its
position; a new key is appended at the end. -/
def alSet {α β : Type} [DecidableEq α] : List (α × β) → α → β → List (α × β)
  | [], key, v => [(key, v)]
  | (k, w) :: t, key, v => if k = key then (key, v) :: t else (k, w) :: alSet t key v

/-- Key membership (JS `Map.has`). -/
def alHas {α β : Type} [DecidableEq α] (l : List (α × β)) (key : α) : Bool :=
  (alGet l key).isSome

/-! ### Branch compression of combat macros (`src/combat.ts`, `CompressedMacro`)

The libram `Macro` type is external to the repository; a macro is observed by
the compressor only through its rendered text (`macro.toString()`), so a
macro body is modelled by its rendered text.  A `CompressedMacro` keeps a
`Map` from rendered body text to the list of monsters sharing that body. -/

/-- Monster, identified by its numeric id (kolmafia `Monster.id`). -/
structure Monster where
  id : Nat
deriving DecidableEq, Repr

/-- Rendered text of a macro body (`Macro.toString()`). -/
abbrev MacroText := String

/-- State of `CompressedMacro`: the `components` map from rendered body text
to the monsters sharing that body, in insertion order. -/
structure CompressedMacro where
  components : List (MacroText × List Monster)
deriving DecidableEq, Repr

/-- Model of `CompressedMacro.add(monster, macro)`:

```ts
const macro_text = macro.toString();
if (macro_text.length === 0) return;
if (!this.components.has(macro_text)) this.components.set(macro_text, [monster]);
else this.components.get(macro_text)?.push(monster);
``` -/
def CompressedMacro.add (cm : CompressedMacro) (monster : Monster) (text : MacroText) :
    CompressedMacro :=
  if text = "" then cm
  else
    match alGet cm.components text with
    | none => ⟨cm.components ++ [(text, [monster])]⟩
    | some ms => ⟨alSet cm.components text (ms ++ [monster])⟩

/-- Adding a whole association of monsters to rendered bodies, in order; this
is the sequence of `monster_macros.add(key, ...)` calls performed by
`CombatStrategy.compile` while iterating its per-monster map. -/
def CompressedMacro.addAll (cm : CompressedMacro) (pairs : List (Monster × MacroText)) :
    CompressedMacro :=
  pairs.foldl (fun acc p => acc.add p.1 p.2) cm

/-- Guard text for one monster: `monsterid <id>`. -/
def monsterGuard (m : Monster) : String :=
  "monsterid " ++ toString m.id

/-- Model of `CompressedMacro.compile()`: one conditional per stored
component, in map order, whose guard joins the monster id checks with
`" || "`:

```ts
this.components.forEach((monsters, macro) => {
  const condition = monsters.map((mon) => "monsterid " + mon.id).join(" || ");
  result.if_(condition, macro);
});
```

The produced macro is observed as the list of (guard, body) conditionals. -/
def CompressedMacro.compile (cm : CompressedMacro) : List (String × MacroText) :=
  cm.components.map (fun p => (String.intercalate " || " (p.2.map monsterGuard), p.1))

/-! Specification-side definitions for the grouping property (claim C4).
These follow the words of the specification ("groups monsters by the rendered
text of their resolved macro body ... one conditional per distinct body") and
are compared with the compiled output of the source model above. -/

/-- Distinct elements of a list, keeping the first occurrence of each. -/
def firstDedup {α : Type} [DecidableEq α] : List α → List α
  | [] => []
  | a :: l => a :: firstDedup (l.filter (fun b => b ≠ a))
termination_by l => l.length
decreasing_by
  simp only [List.length_cons]
  exact Nat.lt_succ_of_le (List.length_filter_le _ _)

/-- The distinct non-empty rendered bodies of an add sequence, in first
occurrence order. -/
def distinctTexts (pairs : List (Monster × MacroText)) : List MacroText :=
  firstDedup ((pairs.map Prod.snd).filter (fun t => t ≠ ""))

/-- All monsters whose rendered body is a given text, in add order. -/
def monstersOf (pairs : List (Monster × MacroText)) (t : MacroText) : List Monster :=
  (pairs.filter (fun p => p.2 = t)).map Prod.fst

/-- The single conditional that the specification prescribes for one distinct
body text: the "||"-joined disjunction of the monster id checks of every
monster sharing that body. -/
def specConditional (pairs : List (Monster × MacroText)) (t : MacroText) :
    String × MacroText :=
  (String.intercalate " || " ((monstersOf pairs t).map monsterGuard), t)

/-- The monster-specific macro portion as the specification describes it:
exactly one conditional per distinct rendered non-empty body. -/
def specCompressed (pairs : List (Monster × MacroText)) : List (String × MacroText) :=
  (distinctTexts pairs).map (specConditional pairs)

/-- The grouped form that a `CompressedMacro` reaches after an add sequence:
one component per distinct non-empty body text, holding the monsters that
share it (the induction invariant behind claim C4). -/
def groupedCM (pairs : List (Monster × MacroText)) : CompressedMacro :=
  ⟨(distinctTexts pairs).map (fun t => (t, monstersOf pairs t))⟩

/-! ### The `CombatStrategy.clone` operation (`src/combat.ts`)

JavaScript `Map` values are heap objects; a `CombatStrategy` instance holds
references to its `macros` and `actions` maps.  The heap is modelled
explicitly: the `Store` keeps the map contents of every allocated map cell,
and a strategy holds the cell indices of its two maps.  Symbolic actions are
modelled by their string name. -/

/-- Heap of allocated `Map` cells for combat strategies: cell `i` of
`macroCells` is the content of the `macros` map with reference `i`, and
likewise for `actionCells`. -/
structure Store where
  macroCells : List (List (Monster × List MacroText))
  actionCells : List (List (Monster × String))
deriving DecidableEq, Repr

/-- A `CombatStrategy` object: its `starting_macro` and `default_macro`
fields hold values (arrays are copied where the source copies them), while
`macros` and `actions` hold references into the store. -/
structure CombatStrategyRef where
  startingM : Option MacroText
  defaultM : Option (List MacroText)
  macrosRef : Nat
  actionsRef : Nat
deriving DecidableEq, Repr

/-- Allocation of `new CombatStrategy()`: two fresh empty maps. -/
def newCombatStrategy (st : Store) : Store × CombatStrategyRef :=
  (⟨st.macroCells ++ [[]], st.actionCells ++ [[]]⟩,
   ⟨none, none, st.macroCells.length, st.actionCells.length⟩)

/-- Content of a strategy's per-monster macro map, read through its heap
reference. -/
def macroMapOf (st : Store) (s : CombatStrategyRef) : List (Monster × List MacroText) :=
  (st.macroCells.get? s.macrosRef).getD []

/-- Content of a strategy's per-monster action map, read through its heap
reference. -/
def actionMapOf (st : Store) (s : CombatStrategyRef) : List (Monster × String) :=
  (st.actionCells.get? s.actionsRef).getD []

/-- Replacement of the heap cell behind a strategy's action map. -/
def writeActionMap (st : Store) (s : CombatStrategyRef) (m : List (Monster × String)) :
    Store :=
  ⟨st.macroCells, st.actionCells.set s.actionsRef m⟩

/-- Replacement of the heap cell behind a strategy's macro map. -/
def writeMacroMap (st : Store) (s : CombatStrategyRef) (m : List (Monster × List MacroText)) :
    Store :=
  ⟨st.macroCells.set s.macrosRef m, st.actionCells⟩

/-- Model of `CombatStrategy.action(action, monster)` for a single monster:

```ts
this.actions.set(monsters, action);
```

The heap cell behind the strategy's `actions` reference is updated. -/
def actionOp (st : Store) (s : CombatStrategyRef) (monster : Monster) (a : String) : Store :=
  writeActionMap st s (alSet (actionMapOf st s) monster a)

/-- Model of `CombatStrategy.macro(macro, monster)` for a single monster:

```ts
if (!this.macros.has(monster)) this.macros.set(monster, []);
this.macros.get(monster)?.push(macro);
``` -/
def macroOp (st : Store) (s : CombatStrategyRef) (monster : Monster) (text : MacroText) :
    Store :=
  let m := macroMapOf st s
  let m := if alHas m monster then m else alSet m monster []
  writeMacroMap st s (alSet m monster (((alGet m monster).getD []) ++ [text]))

/-- Model of `CombatStrategy.clone()`:

```ts
const result = { ...this };
if (result.default_macro) result.default_macro = [...result.default_macro];
for (const pair of this.macros) result.macros.set(pair[0], [...pair[1]]);
for (const pair of this.actions) result.actions.set(pair[0], pair[1]);
return result;
```

The object spread `{ ...this }` copies the `macros` and `actions` fields,
which are references: the returned object holds the same two `Map` cells as
the original.  The two `for` loops then `set` every existing key of those
very same maps to a copy of its value (for macro lists) or to the identical
value (for actions); with map contents modelled as values, re-setting every
present key to an equal value leaves each cell's content unchanged, so the
store is unchanged.  The `default_macro` array is copied by value. -/
def cloneOp (st : Store) (s : CombatStrategyRef) : Store × CombatStrategyRef :=
  (st, ⟨s.startingM, s.defaultM, s.macrosRef, s.actionsRef⟩)

/-! ### The engine (`src/engine.ts`)

The engine's game-facing steps (item retrieval, effect casting, combat) are
side effects in an external session; each pipeline step of `execute` is
modelled by its observable outcome: `none` for normal completion or
`some err` for a raised error. -/

/-- Model of `maxSongs()`:

```ts
return have($skill`Mariachi Memory`) ? 4 : 3;
``` -/
def maxSongs (mariachiMemory : Bool) : Nat :=
  if mariachiMemory then 4 else 3

/-- Model of the song removal loop of `Engine.acquireEffects`:

```ts
while (songs.length + extraSongs.length > maxSongs()) {
  const toRemove = extraSongs.pop();
  if (toRemove === undefined) break; else uneffect(toRemove);
}
```

`pop` removes the last element.  The result is the pair of the remaining
extra songs and the removed songs in removal order. -/
def popExtraSongs {E : Type} (songsLen cap : Nat) (extra : List E) : List E × List E :=
  if songsLen + extra.length > cap then
    match extra with
    | [] => (extra, [])
    | a :: t =>
      let r := popExtraSongs songsLen cap (a :: t).dropLast
      (r.1, t.getLastD a :: r.2)
  else (extra, [])
termination_by extra.length
decreasing_by
  simp [List.length_dropLast]

/-- One observable game action of `Engine.acquireEffects`: removing an active
effect (`uneffect`) or ensuring a requested effect (`ensureEffect`). -/
inductive EffAction (E : Type) where
  | remove (e : E)
  | ensure (e : E)
deriving DecidableEq, Repr

/-- Model of `Engine.acquireEffects(task)`; `E` is the type of status
effects, `isSong` the libram song-category test, `active` the currently
active effects (`myEffects()`), `effects` the task's requested effects.

```ts
const effects: Effect[] = undelay(task.effects) ?? [];
const songs = effects.filter((effect) => isSong(effect));
if (songs.length > maxSongs()) throw "Too many AT songs";
const extraSongs = Object.keys(myEffects())
  .map((effectName) => toEffect(effectName))
  .filter((effect) => isSong(effect) && !songs.includes(effect));
while (songs.length + extraSongs.length > maxSongs()) { ... }
for (const effect of effects) ensureEffect(effect);
```

The result is the trace of performed game actions together with the raised
error, if any; a raised error aborts before any action is performed. -/
def acquireEffects {E : Type} [DecidableEq E] (mariachiMemory : Bool) (isSong : E → Bool)
    (active effects : List E) : List (EffAction E) × Option String :=
  let songs := effects.filter isSong
  if songs.length > maxSongs mariachiMemory then ([], some "Too many AT songs")
  else
    let extraSongs := active.filter (fun e => isSong e && ¬songs.contains e)
    let removed := (popExtraSongs songs.length (maxSongs mariachiMemory) extraSongs).2
    (removed.map EffAction.remove ++ effects.map EffAction.ensure, none)

/-- The limit specification of a task (`src/limit.ts`, plus the `skip` field
consulted by `Engine.available`).  Guards are two-phase functions in the
source; a guard is modelled by the boolean its post-execution phase finally
evaluates to. -/
structure LimitM where
  tries : Option Nat := none
  turns : Option Nat := none
  soft : Option Nat := none
  unready : Option Bool := none
  completedBy : Option Bool := none
  guard : Option Bool := none
  message : Option String := none
  skip : Option Nat := none
deriving DecidableEq, Repr

/-- A task as the engine observes it around one `execute` call.  The task's
predicates are modelled by their evaluation results: `completedNow` is what
`completed()` returns when consulted (after execution for `checkLimits`, at
selection time for `available`), `readyNow` likewise for the optional
`ready()`. -/
structure TaskM where
  name : String
  after : List String := []
  readyNow : Option Bool := none
  completedNow : Bool := false
  doIsLocation : Bool := false
  turnsSpent : Nat := 0
  limit : Option LimitM := none
deriving DecidableEq, Repr

/-- Attempt counters: `attempts` maps a task name to its counter; a name not
in the JS object reads as `undefined`, modelled by `none`. -/
abbrev Attempts := String → Option Nat

/-- Model of `Engine.markAttempt(task)`:

```ts
if (!(task.name in this.attempts)) this.attempts[task.name] = 0;
this.attempts[task.name]++;
``` -/
def markAttempt (attempts : Attempts) (name : String) : Attempts :=
  fun n => if n = name then some ((attempts name).getD 0 + 1) else attempts n

/-- JS `x >= y` where `x` may be `undefined` (`undefined >= y` is false). -/
def jsGe (x : Option Nat) (y : Nat) : Bool :=
  match x with
  | none => false
  | some a => a ≥ y

/-- Model of `Engine.checkLimits(task, postcondition)`; returns the raised
error, if any.  `attemptsVal` is `this.attempts[task.name]` and
`postcondition` the captured guard postcondition (absent when the task has no
limit or no guard).  JS truthiness: a numeric threshold equal to `0` is falsy
and its check is skipped.

```ts
if (!task.limit) return;
const failureMessage = task.limit.message ? " " + task.limit.message : "";
if (!task.completed()) {
  if (task.limit.tries && attempts >= task.limit.tries) throw ...;
  if (task.limit.soft && attempts >= task.limit.soft) throw ...;
  if (task.limit.turns && task.do instanceof Location && task.do.turnsSpent >= task.limit.turns) throw ...;
  if (task.limit.unready && task.ready?.()) throw ...;
  if (task.limit.completed) throw ...;
}
if (postcondition && !postcondition()) throw ...;
``` -/
def checkLimits (task : TaskM) (attemptsVal : Option Nat) (postcondition : Option Bool) :
    Option String :=
  match task.limit with
  | none => none
  | some lim =>
    let failureMessage := match lim.message with
      | some m => " " ++ m
      | none => ""
    if ¬task.completedNow ∧ (lim.tries.getD 0 ≠ 0) ∧ jsGe attemptsVal (lim.tries.getD 0) then
      some ("Task " ++ task.name ++ " did not complete within " ++
        toString (lim.tries.getD 0) ++
        " attempts. Please check what went wrong." ++ failureMessage)
    else if ¬task.completedNow ∧ (lim.soft.getD 0 ≠ 0) ∧ jsGe attemptsVal (lim.soft.getD 0) then
      some ("Task " ++ task.name ++ " did not complete within " ++
        toString (lim.soft.getD 0) ++
        " attempts. Please check what went wrong (you may just be unlucky)." ++ failureMessage)
    else if ¬task.completedNow ∧ (lim.turns.getD 0 ≠ 0) ∧ task.doIsLocation ∧
        task.turnsSpent ≥ lim.turns.getD 0 then
      some ("Task " ++ task.name ++ " did not complete within " ++
        toString (lim.turns.getD 0) ++
        " turns. Please check what went wrong." ++ failureMessage)
    else if ¬task.completedNow ∧ lim.unready.getD false ∧ task.readyNow.getD false then
      some ("Task " ++ task.name ++
        " is still ready, but it should not be. Please check what went wrong." ++ failureMessage)
    else if ¬task.completedNow ∧ lim.completedBy.getD false then
      some ("Task " ++ task.name ++
        " is not completed, but it should be. Please check what went wrong." ++ failureMessage)
    else if postcondition = some false then
      some ("Task " ++ task.name ++
        " failed its guard. Please check what went wrong." ++ failureMessage)
    else none

/-- Outcomes of the side-effecting pipeline steps of one `Engine.execute`
call, in pipeline order.  `doErr k` is the outcome of the `k`-th `this.do`
call (`k = 0` for the initial one); `repeats` is how many times
`shouldRepeatAdv` answers true, i.e. how often the wandering-noncombat loop
repeats the task body. -/
structure StepOutcomes where
  acquireItemsErr : Option String := none
  acquireEffectsErr : Option String := none
  createOutfitErr : Option String := none
  customizeErr : Option String := none
  dressErr : Option String := none
  setCombatErr : Option String := none
  setChoicesErr : Option String := none
  resourcePrepErr : Option String := none
  prepareErr : Option String := none
  doErr : Nat → Option String := fun _ => none
  repeats : Nat := 0
  postErr : Option String := none

/-- First error among the initial `do` call and the wandering-noncombat
repeats:

```ts
this.do(task);
while (this.shouldRepeatAdv(task)) { set("lastEncounter", ""); this.do(task); }
``` -/
def doLoopErr (outcomes : StepOutcomes) : Option String :=
  (List.range (outcomes.repeats + 1)).foldl
    (fun acc k => acc <|> outcomes.doErr k) none

/-- The first raised error of the pipeline steps preceding `markAttempt`, in
source order (`acquireItems`, `acquireEffects`, `createOutfit`, `customize`,
`dress`, `setCombat`, `setChoices`, resource `prepare` hooks,
`task.prepare`, the `do` loop, `task.post`). -/
def preMarkErr (outcomes : StepOutcomes) : Option String :=
  outcomes.acquireItemsErr <|> outcomes.acquireEffectsErr <|> outcomes.createOutfitErr <|>
    outcomes.customizeErr <|> outcomes.dressErr <|> outcomes.setCombatErr <|>
    outcomes.setChoicesErr <|> outcomes.resourcePrepErr <|> outcomes.prepareErr <|>
    doLoopErr outcomes <|> outcomes.postErr

/-- Model of `Engine.execute(task)` as it acts on the attempt counters:

```ts
const postcondition = task.limit?.guard?.();
this.acquireItems(task); this.acquireEffects(task);
... (outfit, combat, choices, prepare) ...
this.do(task);
while (this.shouldRepeatAdv(task)) { set("lastEncounter", ""); this.do(task); }
this.post(task);
this.markAttempt(task);
this.checkLimits(task, postcondition);
```

There is no `try`/`finally`: an error raised by any step unwinds `execute`
immediately.  The result is the updated attempt counters paired with the
raised error, if any. -/
def execute (outcomes : StepOutcomes) (task : TaskM) (attempts : Attempts) :
    Attempts × Option String :=
  let postcondition := task.limit.bind (fun lim => lim.guard)
  match preMarkErr outcomes with
  | some err => (attempts, some err)
  | none =>
    let attempts2 := markAttempt attempts task.name
    (attempts2, checkLimits task (attempts2 task.name) postcondition)

/-- Model of `Engine.available(task)`; `byName` is `this.tasks_by_name`.
The dependency loop raises a configuration error on an unknown name.

```ts
if (task.limit?.skip !== undefined && this.attempts[task.name] >= task.limit.skip) return false;
for (const after of task.after ?? []) {
  const after_task = this.tasks_by_name.get(after);
  if (after_task === undefined) throw "Unknown task dependency " + after + " on " + task.name;
  if (!after_task.completed()) return false;
}
if (task.ready && !task.ready()) return false;
if (task.completed()) return false;
return true;
``` -/
def availableAfter (byName : String → Option TaskM) (taskName : String) :
    List String → Except String Bool
  | [] => Except.ok true
  | after :: rest =>
    match byName after with
    | none => Except.error ("Unknown task dependency " ++ after ++ " on " ++ taskName)
    | some afterTask =>
      if ¬afterTask.completedNow then Except.ok false
      else availableAfter byName taskName rest

/-- Model of `Engine.available(task)` (see `availableAfter` for the
dependency loop). -/
def available (byName : String → Option TaskM) (attempts : Attempts) (task : TaskM) :
    Except String Bool :=
  if (task.limit.bind (fun lim => lim.skip)).isSome ∧
      jsGe (attempts task.name) ((task.limit.bind (fun lim => lim.skip)).getD 0) then
    Except.ok false
  else
    match availableAfter byName task.name task.after with
    | Except.error e => Except.error e
    | Except.ok false => Except.ok false
    | Except.ok true =>
      if task.readyNow = some false then Except.ok false
      else if task.completedNow then Except.ok false
      else Except.ok true

/-! ### The outfit equip solver (`src/outfit.ts`)

Items and familiars are opaque game entities identified by numeric ids; the
kolmafia primitives describing them (`toSlot`, `weaponHands`,
`booleanModifier(.., "Single Equip")`, `canEquip`, `have`, skill ownership)
are an environment of pure functions.  Id `0` is reserved for the sentinel
`$item.none` / `$familiar.none`; the two dedicated holding familiars get
fixed ids. -/

/-- Equipment slot.  `famSlot` is kolmafia's `familiar` slot (the companion
equipment slot), `snone` is kolmafia's `$slot.none` returned by `toSlot` for
non-equipment. -/
inductive Slot where
  | weapon | offhand | hat | back | shirt | pants
  | acc1 | acc2 | acc3 | famSlot | buddyBjorn | crownOfThrones | snone
deriving DecidableEq, Repr

/-- Game item, by id. -/
structure Item where
  id : Nat
deriving DecidableEq, Repr

/-- Game familiar, by id. -/
structure Familiar where
  id : Nat
deriving DecidableEq, Repr

/-- The sentinel `$item.none`. -/
def Item.noneItem : Item := ⟨0⟩

/-- The sentinel `$familiar.none`. -/
def Familiar.noneFam : Familiar := ⟨0⟩

/-- The `Disembodied Hand` familiar (can hold a weapon). -/
def disembodiedHand : Familiar := ⟨1⟩

/-- The `Left-Hand Man` familiar (can hold an off-hand item). -/
def leftHandMan : Familiar := ⟨2⟩

/-- The game-state environment consulted by the solver. -/
structure Env where
  /-- kolmafia `toSlot(item)`: the natural slot of an item (`acc1` for every
  accessory, `snone` for non-equipment). -/
  itemSlot : Item → Slot
  /-- kolmafia `weaponHands(item)`. -/
  hands : Item → Nat
  /-- `booleanModifier(item, "Single Equip")`. -/
  singleEquip : Item → Bool
  /-- kolmafia `canEquip(item)`. -/
  canEquipItem : Item → Bool
  /-- kolmafia `canEquip(familiar, item)`. -/
  canEquipFam : Familiar → Item → Bool
  /-- the owned amount backing libram `have(item, n)`. -/
  itemCount : Item → Nat
  /-- libram `have(familiar)`. -/
  haveFam : Familiar → Bool
  /-- `have($skill` Double-Fisted Skull Smashing `)`. -/
  dualFisted : Bool

/-- The wrapper `weaponHands = (i?: Item) => (i ? mafiaWeaponHands(i) : 0)`. -/
def weaponHands (env : Env) : Option Item → Nat
  | none => 0
  | some i => env.hands i

/-- libram `have(item, n)`. -/
def haveN (env : Env) (i : Item) (n : Nat) : Bool :=
  env.itemCount i ≥ n

/-- The per-item configuration modes.  A mode value is its string setting;
the retrocape mode is a pair of independently settable parts (`undefined`
parts mean "do not care"). -/
structure Modes where
  backupcamera : Option String := none
  umbrella : Option String := none
  snowsuit : Option String := none
  edpiece : Option String := none
  retrocape : Option (Option String × Option String) := none
  parka : Option String := none
deriving DecidableEq, Repr

/-- Result of an equip operation: `{ success: true }` or
`{ success: false; reason }`. -/
structure EquipResult where
  success : Bool
  reason : String := ""
deriving DecidableEq, Repr

/-- The source's `SUCCESS` constant. -/
def SUCCESS : EquipResult := ⟨true, ""⟩

/-- The source's `fail(msg)` helper. -/
def failWith (msg : String) : EquipResult :=
  ⟨false, msg⟩

/-- Model of `mergeResults(results)`: success when no subcall failed,
otherwise the failure joining every failure reason. -/
def mergeResults (results : List EquipResult) : EquipResult :=
  let failures := results.filter (fun r => ¬r.success)
  if failures.isEmpty then SUCCESS
  else failWith (String.intercalate " " (failures.map (fun r => r.reason)))

/-- Either a single value or an array of values, for the `Item | Item[]`
(and `Familiar | Familiar[]`) unions of the declaration surface. -/
inductive OneOrMany (α : Type) where
  | one (a : α)
  | many (l : List α)
deriving DecidableEq, Repr

/-- The mutable working `Outfit`.  The before/after dress hooks hold opaque
callbacks; each callback is modelled by an id. -/
structure Outfit where
  equips : List (Slot × Item) := []
  riders : List (Slot × Familiar) := []
  modes : Modes := {}
  skipDefaults : Bool := false
  familiar : Option Familiar := none
  modifier : List String := []
  avoid : List Item := []
  bonuses : List (Item × Int) := []
  preActions : List Nat := []
  postActions : List Nat := []
deriving DecidableEq, Repr

/-- Model of `Outfit.equippedAmount(item)`. -/
def equippedAmount (o : Outfit) (i : Item) : Nat :=
  ((o.equips.map Prod.snd).filter (fun j => j = i)).length

/-- Model of `Outfit.isAvailable(item)` (avoid list, ownership of one more
copy than already reserved, single-equip flag). -/
def isAvailable (env : Env) (o : Outfit) (i : Item) : EquipResult :=
  if o.avoid.contains i then
    failWith "Cannot equip the item since it is on the avoid list."
  else if ¬haveN env i (equippedAmount o i + 1) then
    if ¬haveN env i 1 then failWith "Cannot equip the item since you do not have any."
    else failWith "Cannot equip the item again since you do not have enough copies."
  else if env.singleEquip i ∧ equippedAmount o i > 0 then
    failWith "Cannot equip the item again since you already have one equipped."
  else SUCCESS

/-- Model of `Outfit.haveEquipped(item, slot?)`. -/
def haveEquipped (o : Outfit) (i : Item) (slot : Option Slot) : Bool :=
  match slot with
  | none => equippedAmount o i > 0
  | some s => alGet o.equips s = some i

/-- Model of `Outfit.equipItemNone(item, slot?)`: the sentinel item reserves
an empty slot (or is a no-op without a slot). -/
def equipItemNone (o : Outfit) (i : Item) (slot : Option Slot) : Outfit × EquipResult :=
  if i ≠ Item.noneItem then (o, failWith "")
  else
    match slot with
    | none => (o, SUCCESS)
    | some s =>
      if alHas o.equips s then
        (o, failWith "Cannot reserve the slot since an item is equipped there.")
      else ({ o with equips := alSet o.equips s i }, SUCCESS)

/-- The three accessory slots, in source order. -/
def accSlots : List Slot := [Slot.acc1, Slot.acc2, Slot.acc3]

/-- Model of `Outfit.equipNonAccessory(item, slot?)`: direct placement into
the item's natural slot, subject to the off-hand one-handed-weapon check and
the familiar-equipment compatibility check. -/
def equipNonAccessory (env : Env) (o : Outfit) (i : Item) (slot : Option Slot) :
    Outfit × EquipResult :=
  if accSlots.contains (env.itemSlot i) then (o, failWith "")
  else if (match slot with
    | some s => decide (s ≠ env.itemSlot i)
    | none => false) then
    (o, failWith "Cannot equip the item to the slot since it belongs elsewhere.")
  else
    let s := env.itemSlot i
    if alHas o.equips s then
      (o, failWith "Cannot equip the item since its slot is already equipped.")
    else if s = Slot.offhand ∧ alHas o.equips Slot.weapon ∧
        weaponHands env (alGet o.equips Slot.weapon) ≠ 1 then
      (o, failWith "Cannot equip the item to off-hand since the weapon is not 1-handed.")
    else if decide (s = Slot.famSlot) && (match o.familiar with
      | some f => !env.canEquipFam f i
      | none => false) then
      (o, failWith "Cannot equip the item since the familiar cannot use it.")
    else if s ≠ Slot.famSlot ∧ ¬env.canEquipItem i then
      (o, failWith "Cannot equip the item since canEquip returned false.")
    else ({ o with equips := alSet o.equips s i }, SUCCESS)

/-- Model of `Outfit.equipAccessory(item, slot?)`: placement into the first
open accessory slot, or the requested one. -/
def equipAccessory (env : Env) (o : Outfit) (i : Item) (slot : Option Slot) :
    Outfit × EquipResult :=
  if !(match slot with
    | none => true
    | some s => accSlots.contains s) then (o, failWith "")
  else if env.itemSlot i ≠ Slot.acc1 then (o, failWith "")
  else if ¬env.canEquipItem i then
    (o, failWith "Cannot equip the accessory since canEquip returned false.")
  else
    match slot with
    | none =>
      match accSlots.find? (fun s => ¬alHas o.equips s) with
      | none => (o, failWith "Cannot equip the accessory since all accessory slots are equipped.")
      | some empty => ({ o with equips := alSet o.equips empty i }, SUCCESS)
    | some s =>
      if alHas o.equips s then
        (o, failWith "Cannot equip the accessory to the slot since it is already equipped.")
      else ({ o with equips := alSet o.equips s i }, SUCCESS)

/-- Model of `Outfit.equipUsingDualWield(item, slot?)`: a one-handed weapon
may fill an empty off-hand when Double-Fisted Skull Smashing is owned. -/
def equipUsingDualWield (env : Env) (o : Outfit) (i : Item) (slot : Option Slot) :
    Outfit × EquipResult :=
  if ¬(slot = none ∨ slot = some Slot.offhand) then (o, failWith "")
  else if env.itemSlot i ≠ Slot.weapon then (o, failWith "")
  else if alHas o.equips Slot.weapon ∧ weaponHands env (alGet o.equips Slot.weapon) ≠ 1 then
    (o, failWith "Cannot dual-wield the item since the weapon is not 1-handed.")
  else if alHas o.equips Slot.offhand then
    (o, failWith "Cannot dual-wield the item since the off-hand is equipped.")
  else if ¬env.dualFisted then
    (o, failWith "Cannot dual-wield the item since we do not have Double-Fisted Skull Smashing.")
  else if env.hands i ≠ 1 then
    (o, failWith "Cannot dual-wield the item since it is not 1-handed.")
  else if ¬env.canEquipItem i then
    (o, failWith "Cannot dual-wield the item since canEquip returned false.")
  else ({ o with equips := alSet o.equips Slot.offhand i }, SUCCESS)

/-- Model of `Outfit.getHoldingFamiliar(item)`. -/
def getHoldingFamiliar (env : Env) (i : Item) : Option Familiar :=
  if env.itemSlot i = Slot.weapon then some disembodiedHand
  else if env.itemSlot i = Slot.offhand then some leftHandMan
  else none

/-- Model of `Outfit.equipFamiliar(familiar)`. -/
def equipFamiliar (env : Env) (o : Outfit) (f : Familiar) : Outfit × EquipResult :=
  if o.familiar = some f then (o, SUCCESS)
  else if o.familiar.isSome then
    (o, failWith "Cannot use the familiar since we are already using another.")
  else if f ≠ Familiar.noneFam ∧ ¬env.haveFam f then
    (o, failWith "Cannot use the familiar since we do not own it.")
  else if f ≠ Familiar.noneFam ∧ (alGet o.riders Slot.crownOfThrones = some f ∨
      alGet o.riders Slot.buddyBjorn = some f) then
    (o, failWith "Cannot use the familiar since it might be riding.")
  else if (match alGet o.equips Slot.famSlot with
    | some it => decide (it ≠ Item.noneItem) && !env.canEquipFam f it
    | none => false) then
    (o, failWith "Cannot use the familiar since it cannot equip the required item.")
  else ({ o with familiar := some f }, SUCCESS)

/-- Model of `Outfit.equipUsingFamiliar(item, slot?)`: certain weapon and
off-hand items may instead be carried by a dedicated holding familiar, which
is recursively equipped as the active familiar. -/
def equipUsingFamiliar (env : Env) (o : Outfit) (i : Item) (slot : Option Slot) :
    Outfit × EquipResult :=
  if ¬(slot = none ∨ slot = some Slot.famSlot) then (o, failWith "")
  else
    match getHoldingFamiliar env i with
    | none => (o, failWith "")
    | some f =>
      if alHas o.equips Slot.famSlot then
        (o, failWith "Cannot equip the item with a familiar since familiar equipment is already equipped.")
      else if env.singleEquip i then
        (o, failWith "Cannot equip the item with a familiar since it is single equip.")
      else
        let t := equipFamiliar env o f
        if ¬t.2.success then
          (t.1, failWith ("Cannot equip the item with its holding familiar; " ++ t.2.reason ++ "."))
        else ({ t.1 with equips := alSet t.1.equips Slot.famSlot i }, SUCCESS)

/-- Model of `Outfit.equipItem(item, slot?)`: no-op success when already
satisfied, sentinel handling, availability gate, then the four placement
strategies in order. -/
def equipItem (env : Env) (o : Outfit) (i : Item) (slot : Option Slot) :
    Outfit × EquipResult :=
  if haveEquipped o i slot then (o, SUCCESS)
  else if i = Item.noneItem then equipItemNone o i slot
  else
    let avail := isAvailable env o i
    if ¬avail.success then (o, avail)
    else
      let r1 := equipNonAccessory env o i slot
      if r1.2.success then (r1.1, SUCCESS)
      else
        let r2 := equipAccessory env r1.1 i slot
        if r2.2.success then (r2.1, SUCCESS)
        else
          let r3 := equipUsingDualWield env r2.1 i slot
          if r3.2.success then (r3.1, SUCCESS)
          else
            let r4 := equipUsingFamiliar env r3.1 i slot
            if r4.2.success then (r4.1, SUCCESS)
            else
              (r4.1, failWith (String.intercalate " "
                [r1.2.reason, r2.2.reason, r3.2.reason, r4.2.reason]))

/-- Model of `Outfit.equipRider(target, slot)`: a slot already holding a
candidate is a no-op success; otherwise the first owned candidate that is
neither the active familiar nor riding the other slot is assigned. -/
def equipRider (env : Env) (o : Outfit) (target : OneOrMany Familiar) (slot : Slot) :
    Outfit × EquipResult :=
  let targets := match target with
    | OneOrMany.one f => [f]
    | OneOrMany.many l => l
  match alGet o.riders slot with
  | some current =>
    if targets.contains current then (o, SUCCESS)
    else (o, failWith "Cannot equip the rider since another familiar is already used there.")
  | none =>
    let otherRiders := (o.riders.filter (fun p => p.1 ≠ slot)).map Prod.snd
    match targets.find? (fun f =>
        env.haveFam f && ¬(o.familiar = some f) && ¬otherRiders.contains f) with
    | some f => ({ o with riders := alSet o.riders slot f }, SUCCESS)
    | none => (o, failWith "Cannot equip any of the candidate familiars in the rider slot.")

/-- Conflict check for one simple mode: both sides set to different values. -/
def modeConflict (name : String) (old new : Option String) : List String :=
  match old, new with
  | some a, some b =>
    if a ≠ b then ["Mode " ++ name ++ " cannot be changed since it is already set."] else []
  | _, _ => []

/-- The retrocape merge: with both sides present, each unset part of the
existing setting is filled from the new one (the in-place `??` updates);
otherwise whichever side is present. -/
def mergeRetro :
    Option (Option String × Option String) → Option (Option String × Option String) →
      Option (Option String × Option String)
  | some (o0, o1), some (n0, n1) => some (o0 <|> n0, o1 <|> n1)
  | some p, none => some p
  | none, x => x

/-- The final mode merge `{ ...modes, ...this.modes }`: a field present on
the existing modes wins over the incoming one. -/
def mergedModes (old new : Modes) : Modes :=
  { backupcamera := old.backupcamera <|> new.backupcamera
    umbrella := old.umbrella <|> new.umbrella
    snowsuit := old.snowsuit <|> new.snowsuit
    edpiece := old.edpiece <|> new.edpiece
    retrocape := mergeRetro old.retrocape new.retrocape
    parka := old.parka <|> new.parka }

/-- Model of `Outfit.setModesVerbose(modes)`: conflicts are reported for the
simple modes (in `modeableCommands` order) and for each retrocape part, but
the merge itself is applied unconditionally, preferring pre-existing
settings. -/
def setModesVerbose (o : Outfit) (m : Modes) : Outfit × EquipResult :=
  let reasons :=
    modeConflict "backupcamera" o.modes.backupcamera m.backupcamera ++
    modeConflict "umbrella" o.modes.umbrella m.umbrella ++
    modeConflict "snowsuit" o.modes.snowsuit m.snowsuit ++
    modeConflict "edpiece" o.modes.edpiece m.edpiece ++
    modeConflict "parka" o.modes.parka m.parka ++
    (match o.modes.retrocape, m.retrocape with
     | some (o0, o1), some (n0, n1) =>
       modeConflict "retrocape0" o0 n0 ++ modeConflict "retrocape1" o1 n1
     | _, _ => [])
  ({ o with modes := mergedModes o.modes m },
   if reasons.isEmpty then SUCCESS else failWith (String.intercalate " " reasons))

/-- Model of `Outfit.getBonus(item)`. -/
def getBonus (o : Outfit) (i : Item) : Int :=
  (alGet o.bonuses i).getD 0

/-- Model of `Outfit.addBonuses(items)`, i.e. `applyBonuses` with the
addition reducer: each entry is `setBonus(item, value + previous)`. -/
def addBonuses (o : Outfit) (items : List (Item × Int)) : Outfit :=
  items.foldl (fun acc p => { acc with bonuses := alSet acc.bonuses p.1 (p.2 + getBonus acc p.1) }) o

/-- The bonus merge expressed on the underlying association list (used to
state what `addBonuses` leaves in the outfit). -/
def bonusFold (b : List (Item × Int)) (items : List (Item × Int)) : List (Item × Int) :=
  items.foldl (fun acc p => alSet acc p.1 (p.2 + (alGet acc p.1).getD 0)) b

/-- The riders sub-specification of an `OutfitSpec`. -/
structure RidersSpec where
  buddyBjorn : Option (OneOrMany Familiar) := none
  crownOfThrones : Option (OneOrMany Familiar) := none
deriving DecidableEq, Repr

/-- The declarative `OutfitSpec`.  Absent optional arrays (`equip`, `avoid`,
the dress hooks) are represented by the empty list, which the source treats
identically (`?? []`). -/
structure OutfitSpec where
  hat : Option (OneOrMany Item) := none
  back : Option (OneOrMany Item) := none
  weapon : Option (OneOrMany Item) := none
  offhand : Option (OneOrMany Item) := none
  shirt : Option (OneOrMany Item) := none
  pants : Option (OneOrMany Item) := none
  acc1 : Option (OneOrMany Item) := none
  acc2 : Option (OneOrMany Item) := none
  acc3 : Option (OneOrMany Item) := none
  famequip : Option (OneOrMany Item) := none
  equip : List Item := []
  modes : Option Modes := none
  modifier : Option (OneOrMany String) := none
  familiar : Option Familiar := none
  avoid : List Item := []
  skipDefaults : Option Bool := none
  riders : Option RidersSpec := none
  bonuses : Option (List (Item × Int)) := none
  beforeDress : List Nat := []
  afterDress : List Nat := []
deriving DecidableEq, Repr

/-- The array equip with a target slot: try each entry in order, return
success at the first one that equips, merge the failures otherwise
(`equipVerbose`, `Array.isArray(thing)` branch with `slot !== undefined`). -/
def equipItemsSlotGo (env : Env) (s : Slot) (o : Outfit) (items : List Item)
    (reasons : List EquipResult) : Outfit × EquipResult :=
  match items with
  | [] => (o, mergeResults reasons)
  | i :: rest =>
    let r := equipItem env o i (some s)
    if r.2.success then (r.1, SUCCESS)
    else equipItemsSlotGo env s r.1 rest (reasons ++ [r.2])

/-- The array equip without a target slot: equip everything, stopping on the
first entry that cannot be equipped (`equipVerbose`, array branch with
`slot === undefined`). -/
def equipItemsNoSlot (env : Env) (o : Outfit) : List Item → Outfit × EquipResult
  | [] => (o, SUCCESS)
  | i :: rest =>
    let r := equipItem env o i none
    if r.2.success then equipItemsNoSlot env r.1 rest
    else (r.1, r.2)

/-- Dispatch of `equipVerbose` for an `Item | Item[]` slot entry of a spec. -/
def equipOneOrManyItems (env : Env) (o : Outfit) (e : OneOrMany Item) (slot : Option Slot) :
    Outfit × EquipResult :=
  match e with
  | OneOrMany.one i => equipItem env o i slot
  | OneOrMany.many l =>
    match slot with
    | some s => equipItemsSlotGo env s o l []
    | none => equipItemsNoSlot env o l

/-- The modifier entries a spec contributes: a string or an array of strings;
an empty single string is falsy in the source and contributes nothing. -/
def modifierList (spec : OutfitSpec) : List String :=
  match spec.modifier with
  | none => []
  | some (OneOrMany.one s) => if s = "" then [] else [s]
  | some (OneOrMany.many l) => l

/-- Appends one performed sub-placement (its post-state and its result) to
the running log of `equipSpec`. -/
def logPush (st : Outfit × List (Outfit × EquipResult)) (r : Outfit × EquipResult) :
    Outfit × List (Outfit × EquipResult) :=
  (r.1, st.2 ++ [r])

/-- One slot entry of the `equipSpec` loop: absent entries contribute
nothing, present ones run `equipVerbose(itemOrItems, slot)`. -/
def slotStep (env : Env) (entry : Option (OneOrMany Item)) (s : Slot)
    (st : Outfit × List (Outfit × EquipResult)) : Outfit × List (Outfit × EquipResult) :=
  match entry with
  | none => st
  | some e => logPush st (equipOneOrManyItems env st.1 e (some s))

/-- The running state of `equipSpec`: the outfit so far and the log of every
result-producing sub-placement performed so far (each with its post-state). -/
abbrev SpecState := Outfit × List (Outfit × EquipResult)

/-- Placement stage of `equipSpec`: the ten slot entries of the spec, in
`outfitSlots` order (`famequip` mapping to the familiar slot and `offhand`
to off-hand), then the free `equip` items, then the familiar. -/
def stagePlacements (env : Env) (spec : OutfitSpec) (st : SpecState) : SpecState :=
  let st := slotStep env spec.hat Slot.hat st
  let st := slotStep env spec.back Slot.back st
  let st := slotStep env spec.weapon Slot.weapon st
  let st := slotStep env spec.offhand Slot.offhand st
  let st := slotStep env spec.shirt Slot.shirt st
  let st := slotStep env spec.pants Slot.pants st
  let st := slotStep env spec.acc1 Slot.acc1 st
  let st := slotStep env spec.acc2 Slot.acc2 st
  let st := slotStep env spec.acc3 Slot.acc3 st
  let st := slotStep env spec.famequip Slot.famSlot st
  let st := spec.equip.foldl (fun st i => logPush st (equipItem env st.1 i none)) st
  match spec.familiar with
  | none => st
  | some f => logPush st (equipFamiliar env st.1 f)

/-- Static merge stage of `equipSpec`: the avoid list push, the
`skipDefaults` disjunction and the modifier push. -/
def stageStatic (spec : OutfitSpec) (st : SpecState) : SpecState :=
  let st := ({ st.1 with avoid := st.1.avoid ++ spec.avoid }, st.2)
  let st := ({ st.1 with skipDefaults := st.1.skipDefaults || spec.skipDefaults.getD false }, st.2)
  ({ st.1 with modifier := st.1.modifier ++ modifierList spec }, st.2)

/-- Mode stage of `equipSpec`: `if (spec.modes) reasons.push(this.setModesVerbose(spec.modes))`. -/
def stageModes (spec : OutfitSpec) (st : SpecState) : SpecState :=
  match spec.modes with
  | none => st
  | some m => logPush st (setModesVerbose st.1 m)

/-- Rider stage of `equipSpec`: the buddy-bjorn rider, then the
crown-of-thrones rider, each when requested. -/
def stageRiders (env : Env) (spec : OutfitSpec) (st : SpecState) : SpecState :=
  match spec.riders with
  | none => st
  | some rs =>
    let st := match rs.buddyBjorn with
      | none => st
      | some t => logPush st (equipRider env st.1 t Slot.buddyBjorn)
    match rs.crownOfThrones with
    | none => st
    | some t => logPush st (equipRider env st.1 t Slot.crownOfThrones)

/-- Bonus stage of `equipSpec`: `if (spec.bonuses) this.addBonuses(spec.bonuses)`. -/
def stageBonuses (spec : OutfitSpec) (st : SpecState) : SpecState :=
  match spec.bonuses with
  | none => st
  | some bs => (addBonuses st.1 bs, st.2)

/-- Hook stage of `equipSpec`: the before/after dress hook pushes. -/
def stageHooks (spec : OutfitSpec) (st : SpecState) : SpecState :=
  let st := ({ st.1 with preActions := st.1.preActions ++ spec.beforeDress }, st.2)
  ({ st.1 with postActions := st.1.postActions ++ spec.afterDress }, st.2)

/-- Model of `Outfit.equipSpec(spec)` with its sequence of sub-placements
made observable: the final outfit together with the log of every
result-producing sub-placement (its post-state and its `EquipResult`), in
source order. -/
def equipSpecLog (env : Env) (o : Outfit) (spec : OutfitSpec) : SpecState :=
  stageHooks spec (stageBonuses spec (stageRiders env spec (stageModes spec
    (stageStatic spec (stagePlacements env spec (o, []))))))

/-- Model of `Outfit.equipSpec(spec)`: the merged result of all logged
sub-placements (`return mergeResults(reasons)`). -/
def Outfit.equipSpec (env : Env) (o : Outfit) (spec : OutfitSpec) : Outfit × EquipResult :=
  let r := equipSpecLog env o spec
  (r.1, mergeResults (r.2.map Prod.snd))

/-- Model of `Outfit.spec()`: the declarative form of a live outfit. -/
def Outfit.toSpec (o : Outfit) : OutfitSpec :=
  { modifier := some (OneOrMany.many o.modifier)
    avoid := o.avoid
    skipDefaults := some o.skipDefaults
    modes := some o.modes
    bonuses := some o.bonuses
    familiar := o.familiar
    hat := (alGet o.equips Slot.hat).map OneOrMany.one
    back := (alGet o.equips Slot.back).map OneOrMany.one
    weapon := (alGet o.equips Slot.weapon).map OneOrMany.one
    offhand := (alGet o.equips Slot.offhand).map OneOrMany.one
    shirt := (alGet o.equips Slot.shirt).map OneOrMany.one
    pants := (alGet o.equips Slot.pants).map OneOrMany.one
    acc1 := (alGet o.equips Slot.acc1).map OneOrMany.one
    acc2 := (alGet o.equips Slot.acc2).map OneOrMany.one
    acc3 := (alGet o.equips Slot.acc3).map OneOrMany.one
    famequip := (alGet o.equips Slot.famSlot).map OneOrMany.one
    riders :=
      if (alGet o.riders Slot.buddyBjorn).isSome ∨ (alGet o.riders Slot.crownOfThrones).isSome
      then some ⟨(alGet o.riders Slot.buddyBjorn).map OneOrMany.one,
        (alGet o.riders Slot.crownOfThrones).map OneOrMany.one⟩
      else none
    beforeDress := o.preActions
    afterDress := o.postActions }

/-- The discriminated union accepted by the `equip` entry point:
`Item | Familiar | OutfitSpec | Item[] | Outfit`. -/
inductive Equippable where
  | item (i : Item)
  | items (l : List Item)
  | fam (f : Familiar)
  | spc (s : OutfitSpec)
  | fit (o : Outfit)
deriving DecidableEq, Repr

/-- Model of `Outfit.equipVerbose(thing, slot?)`: dispatch on the shape of
the equippable (array, item, familiar, outfit converted to its spec, spec). -/
def equipVerbose (env : Env) (o : Outfit) (thing : Equippable) (slot : Option Slot) :
    Outfit × EquipResult :=
  match thing with
  | Equippable.items l =>
    match slot with
    | some s => equipItemsSlotGo env s o l []
    | none => equipItemsNoSlot env o l
  | Equippable.item i => equipItem env o i slot
  | Equippable.fam f => equipFamiliar env o f
  | Equippable.fit other => Outfit.equipSpec env o other.toSpec
  | Equippable.spc s => Outfit.equipSpec env o s

/-- Model of `Outfit.equip(thing, slot?)`: the boolean success of
`equipVerbose`. -/
def Outfit.equip (env : Env) (o : Outfit) (thing : Equippable) (slot : Option Slot) :
    Outfit × Bool :=
  let r := equipVerbose env o thing slot
  (r.1, r.2.success)

/-- Helper for `Outfit.equipFirst`: `things.some((val) => this.equip(val, slot))`
evaluated sequentially with its side effects. -/
def equipFirstSome (env : Env) (o : Outfit) (things : List Item) (slot : Option Slot) :
    Outfit × Bool :=
  match things with
  | [] => (o, false)
  | i :: rest =>
    let r := Outfit.equip env o (Equippable.item i) slot
    if r.2 then (r.1, true)
    else equipFirstSome env r.1 rest slot

/-- Model of `Outfit.equipFirst(things, slot?)` for item lists (an empty
list is an immediate success by the documented convention). -/
def equipFirst (env : Env) (o : Outfit) (things : List Item) (slot : Option Slot) :
    Outfit × Bool :=
  match things with
  | [] => (o, true)
  | _ => equipFirstSome env o things slot

/-- Extension order on the slot assignment maps: every assignment of the
first outfit is still present, unchanged, in the second.  This is the
write-once reading of the equip entry points: an assignment, once made, is
never modified or removed by further equip calls. -/
def equipsExtends (o o2 : Outfit) : Prop :=
  ∀ s i, alGet o.equips s = some i → alGet o2.equips s = some i

/-- Invariant of the spec-merge sequence: the current outfit extends the
original outfit and the post-state of every logged sub-placement — i.e.
nothing a sub-placement committed is ever rolled back. -/
def LogOk (o : Outfit) (st : SpecState) : Prop :=
  equipsExtends o st.1 ∧ ∀ e ∈ st.2, equipsExtends e.1 st.1

/-- The outfit `r` differs from `o` at most in its `equips` and `familiar`
fields (the only fields an item placement can touch). -/
def efShape (o r : Outfit) : Prop :=
  ∃ e f, r = { o with equips := e, familiar := f }

/-! Specification-side definitions for claim C6, following the claim's
words for the two array-equip semantics. -/

/-- Claim C6's description of the slotless array equip: attempt entries in
order, require every entry to succeed, stop at the first failure. -/
def claimAllOf (env : Env) (o : Outfit) : List Item → Outfit × Bool
  | [] => (o, true)
  | i :: rest =>
    let r := equipItem env o i none
    if r.2.success then claimAllOf env r.1 rest
    else (r.1, false)

/-- Claim C6's description of the slotful array equip: attempt entries in
order, succeed at the first entry that equips (attempting no later entry),
fail only when every entry fails. -/
def claimFirstOf (env : Env) (o : Outfit) (s : Slot) : List Item → Outfit × Bool
  | [] => (o, false)
  | i :: rest =>
    let r := equipItem env o i (some s)
    if r.2.success then (r.1, true)
    else claimFirstOf env r.1 s rest

/-! ### Concrete instances used by witnesses and counterexamples -/

/-- Fresh attempt counters (no task has been attempted). -/
def emptyAttempts : Attempts := fun _ => none

/-- Pipeline outcomes of a run where every step completes normally. -/
def outcomesOkW : StepOutcomes := {}

/-- Pipeline outcomes of a run where the item-acquisition step raises. -/
def outcomesItemFailW : StepOutcomes :=
  { acquireItemsErr := some "Task A was unable to acquire 1 widget" }

/-- A plain task named `A`. -/
def taskPlainW : TaskM := { name := "A" }

/-- A task that is completed after execution but whose guard postcondition
evaluates to false; its `tries` threshold is exceeded by any attempt count
of 3 or more. -/
def taskGuardW : TaskM :=
  { name := "A", completedNow := true, limit := some { tries := some 3, guard := some false } }

/-- A completed task with an exceeded `tries` threshold and a passing
guard. -/
def taskGuardOkW : TaskM :=
  { name := "A", completedNow := true, limit := some { tries := some 3, guard := some true } }

/-- Task `A`, depending directly on `B` only. -/
def taskAW : TaskM := { name := "A", after := ["B"] }

/-- Task `B`, depending on `C`, already completed. -/
def taskBW : TaskM := { name := "B", after := ["C"], completedNow := true }

/-- Task `C`, not completed. -/
def taskCW : TaskM := { name := "C" }

/-- The `tasks_by_name` map of the engine holding `A`, `B`, `C`. -/
def byNameW : String → Option TaskM := fun n =>
  if n = "A" then some taskAW
  else if n = "B" then some taskBW
  else if n = "C" then some taskCW
  else none

/-- A song classification on numeric effects for the C7 witness: effects
below 10 are songs. -/
def isSongW : Nat → Bool := fun n => n < 10

/-- A small concrete game environment for the outfit witnesses: item 1 is a
hat, item 2 an accessory, item 3 a one-handed weapon, item 4 a second hat;
everything except the sentinel is owned twice; no dual-wield skill. -/
def envW : Env :=
  { itemSlot := fun i =>
      if i = ⟨1⟩ then Slot.hat
      else if i = ⟨2⟩ then Slot.acc1
      else if i = ⟨3⟩ then Slot.weapon
      else if i = ⟨4⟩ then Slot.hat
      else Slot.snone
    hands := fun i => if i = ⟨3⟩ then 1 else 0
    singleEquip := fun _ => false
    canEquipItem := fun _ => true
    canEquipFam := fun _ _ => true
    itemCount := fun i => if i = Item.noneItem then 0 else 2
    haveFam := fun _ => true
    dualFisted := false }

/-- The empty working outfit. -/
def outfitW : Outfit := {}

/-- An outfit that already has an item committed to the hat slot. -/
def outfitHatW : Outfit := { equips := [(Slot.hat, ⟨4⟩)] }

/-- A spec whose hat entry is satisfiable and whose weapon entry is not
(item 5 is not equipment), with an avoid item and a modifier goal. -/
def specW : OutfitSpec :=
  { hat := some (OneOrMany.one ⟨1⟩)
    weapon := some (OneOrMany.one ⟨5⟩)
    avoid := [⟨6⟩]
    modifier := some (OneOrMany.one "meat") }

/-- A fresh strategy allocated on an empty heap. -/
def c3init : Store × CombatStrategyRef := newCombatStrategy ⟨[], []⟩

/-- The clone of that fresh strategy. -/
def c3clone : Store × CombatStrategyRef := cloneOp c3init.1 c3init.2

/-- The heap after adding an action for monster 7 to the clone. -/
def c3afterAction : Store := actionOp c3clone.1 c3clone.2 ⟨7⟩ "attack"

/-- The heap after adding a macro for monster 7 to the clone. -/
def c3afterMacroAdd : Store := macroOp c3clone.1 c3clone.2 ⟨7⟩ "attack with weapon"

/-! ## Theorems -/

/-! ### Association list lemmas -/

theorem alGet_alSet_self {α β : Type} [DecidableEq α] (l : List (α × β)) (k : α) (v : β) :
    alGet (alSet l k v) k = some v := by
  induction l with
  | nil => simp [alSet, alGet]
  | cons hd t ih =>
    rcases hd with ⟨k1, v1⟩
    by_cases hk : k1 = k
    · simp [alSet, hk, alGet]
    · simp [alSet, hk, alGet, ih]

theorem alGet_alSet_ne {α β : Type} [DecidableEq α] (l : List (α × β)) {k key : α} (v : β)
    (h : k ≠ key) : alGet (alSet l k v) key = alGet l key := by
  induction l with
  | nil => simp [alSet, alGet, h]
  | cons hd t ih =>
    rcases hd with ⟨k1, v1⟩
    by_cases hk : k1 = k
    · subst hk
      simp [alSet, alGet, h]
    · simp only [alSet, if_neg hk]
      by_cases hkey : k1 = key
      · simp [alGet, hkey]
      · simp [alGet, hkey, ih]

theorem alGet_alSet_preserves {α β : Type} [DecidableEq α] {l : List (α × β)} {k key : α}
    {v i : β} (hnew : alGet l k = none) (h : alGet l key = some i) :
    alGet (alSet l k v) key = some i := by
  have hne : k ≠ key := by
    rintro rfl
    rw [hnew] at h
    cases h
  rw [alGet_alSet_ne l v hne]
  exact h

/-! ### Dedup and grouping lemmas (claim C4) -/

theorem firstDedup_nil {α : Type} [DecidableEq α] : firstDedup ([] : List α) = [] := by
  rw [firstDedup]

theorem firstDedup_cons {α : Type} [DecidableEq α] (a : α) (l : List α) :
    firstDedup (a :: l) = a :: firstDedup (l.filter (fun b => b ≠ a)) := by
  rw [firstDedup]

theorem mem_firstDedup {α : Type} [DecidableEq α] (l : List α) (x : α) :
    x ∈ firstDedup l ↔ x ∈ l := by
  generalize hn : l.length = n
  induction n using Nat.strong_induction_on generalizing l with
  | _ n ih =>
    cases l with
    | nil => rw [firstDedup_nil]
    | cons a t =>
      rw [firstDedup_cons]
      have hlen : (t.filter (fun b => b ≠ a)).length < n := by
        subst hn
        simp only [List.length_cons]
        exact Nat.lt_succ_of_le (List.length_filter_le _ _)
      have ihx := ih _ hlen (t.filter (fun b => b ≠ a)) rfl
      constructor
      · intro hx
        rcases List.mem_cons.mp hx with h | h
        · exact h ▸ List.mem_cons_self a t
        · exact List.mem_cons.mpr (Or.inr (List.mem_filter.mp (ihx.mp h)).1)
      · intro hx
        by_cases hxa : x = a
        · exact List.mem_cons.mpr (Or.inl hxa)
        · rcases List.mem_cons.mp hx with h | h
          · exact absurd h hxa
          · exact List.mem_cons.mpr (Or.inr (ihx.mpr (List.mem_filter.mpr ⟨h, by simp [hxa]⟩)))

theorem nodup_firstDedup {α : Type} [DecidableEq α] (l : List α) : (firstDedup l).Nodup := by
  generalize hn : l.length = n
  induction n using Nat.strong_induction_on generalizing l with
  | _ n ih =>
    cases l with
    | nil =>
      rw [firstDedup_nil]
      exact List.nodup_nil
    | cons a t =>
      rw [firstDedup_cons]
      have hlen : (t.filter (fun b => b ≠ a)).length < n := by
        subst hn
        simp only [List.length_cons]
        exact Nat.lt_succ_of_le (List.length_filter_le _ _)
      refine List.nodup_cons.mpr ⟨?_, ih _ hlen _ rfl⟩
      intro hmem
      have h2 := List.mem_filter.mp ((mem_firstDedup _ _).mp hmem)
      simp at h2

theorem firstDedup_append_singleton {α : Type} [DecidableEq α] (l : List α) (a : α) :
    firstDedup (l ++ [a]) = if a ∈ l then firstDedup l else firstDedup l ++ [a] := by
  generalize hn : l.length = n
  induction n using Nat.strong_induction_on generalizing l with
  | _ n ih =>
    cases l with
    | nil =>
      rw [List.nil_append, firstDedup_cons, firstDedup_nil]
      simp [List.filter_nil, firstDedup_nil]
    | cons b t =>
      rw [List.cons_append, firstDedup_cons, firstDedup_cons, List.filter_append]
      have hlen : (t.filter (fun b2 => b2 ≠ b)).length < n := by
        subst hn
        simp only [List.length_cons]
        exact Nat.lt_succ_of_le (List.length_filter_le _ _)
      by_cases hab : a = b
      · have hfa : ([a].filter (fun b2 => b2 ≠ b)) = [] := by simp [hab]
        rw [hfa, List.append_nil, if_pos (List.mem_cons.mpr (Or.inl hab))]
      · have hfa : ([a].filter (fun b2 => b2 ≠ b)) = [a] := by simp [hab]
        rw [hfa, ih _ hlen _ rfl]
        have hmemiff : a ∈ t.filter (fun b2 => b2 ≠ b) ↔ a ∈ t := by
          rw [List.mem_filter]
          simp [hab]
        by_cases hat : a ∈ t
        · rw [if_pos (hmemiff.mpr hat), if_pos (List.mem_cons.mpr (Or.inr hat))]
        · rw [if_neg (fun h => hat (hmemiff.mp h)),
            if_neg (by simp [List.mem_cons, hab, hat]), List.cons_append]

theorem alGet_map_fn {α β : Type} [DecidableEq α] (l : List α) (g : α → β) (key : α) :
    alGet (l.map (fun t => (t, g t))) key = if key ∈ l then some (g key) else none := by
  induction l with
  | nil => simp [alGet]
  | cons a t ih =>
    simp only [List.map_cons, alGet]
    by_cases h : a = key
    · subst h
      simp
    · rw [if_neg h, ih]
      by_cases hk : key ∈ t
      · rw [if_pos hk, if_pos (List.mem_cons.mpr (Or.inr hk))]
      · rw [if_neg hk, if_neg ?_]
        intro hc
        rcases List.mem_cons.mp hc with h1 | h1
        · exact h h1.symm
        · exact hk h1

theorem alSet_map_fn {α β : Type} [DecidableEq α] (l : List α) (g : α → β) (key : α) (v : β)
    (hmem : key ∈ l) (hnd : l.Nodup) :
    alSet (l.map (fun t => (t, g t))) key v =
      l.map (fun t => (t, if t = key then v else g t)) := by
  induction l with
  | nil => cases hmem
  | cons a t ih =>
    simp only [List.map_cons, alSet]
    by_cases h : a = key
    · rw [if_pos h]
      subst h
      have hnotin : a ∉ t := (List.nodup_cons.mp hnd).1
      simp only [if_pos rfl]
      congr 1
      apply List.map_congr_left
      intro x hx
      have hxa : x ≠ a := fun hxa => hnotin (hxa ▸ hx)
      simp [hxa]
    · rw [if_neg h]
      have hkt : key ∈ t := by
        rcases List.mem_cons.mp hmem with h1 | h1
        · exact absurd h1.symm h
        · exact h1
      rw [ih hkt (List.nodup_cons.mp hnd).2, if_neg h]

theorem monstersOf_append (P : List (Monster × MacroText)) (p : Monster × MacroText)
    (t : MacroText) :
    monstersOf (P ++ [p]) t = monstersOf P t ++ (if p.2 = t then [p.1] else []) := by
  unfold monstersOf
  rw [List.filter_append, List.map_append]
  congr 1
  by_cases h : p.2 = t <;> simp [h]

theorem mem_distinctTexts (P : List (Monster × MacroText)) (t : MacroText) :
    t ∈ distinctTexts P ↔ (t ≠ "" ∧ t ∈ P.map Prod.snd) := by
  unfold distinctTexts
  rw [mem_firstDedup, List.mem_filter]
  simp [and_comm]

theorem monstersOf_eq_nil (P : List (Monster × MacroText)) (t : MacroText)
    (h : t ∉ P.map Prod.snd) : monstersOf P t = [] := by
  unfold monstersOf
  have hf : P.filter (fun q => q.2 = t) = [] := by
    rw [List.filter_eq_nil_iff]
    intro q hq
    simp only [decide_eq_true_eq]
    intro hqt
    exact h (hqt ▸ List.mem_map_of_mem Prod.snd hq)
  rw [hf]
  rfl

theorem distinctTexts_append (P : List (Monster × MacroText)) (p : Monster × MacroText) :
    distinctTexts (P ++ [p]) =
      if p.2 = "" then distinctTexts P
      else if p.2 ∈ distinctTexts P then distinctTexts P
      else distinctTexts P ++ [p.2] := by
  unfold distinctTexts
  rw [List.map_append, List.filter_append]
  by_cases h : p.2 = ""
  · have hf : ((List.map Prod.snd [p]).filter (fun t => t ≠ "")) = [] := by simp [h]
    rw [hf, List.append_nil, if_pos h]
  · have hf : ((List.map Prod.snd [p]).filter (fun t => t ≠ "")) = [p.2] := by simp [h]
    rw [hf, firstDedup_append_singleton, if_neg h]
    by_cases h2 : p.2 ∈ firstDedup ((P.map Prod.snd).filter (fun t => t ≠ ""))
    · rw [if_pos ((mem_firstDedup _ _).mp h2), if_pos h2]
    · rw [if_neg (fun hc => h2 ((mem_firstDedup _ _).mpr hc)), if_neg h2]

theorem add_grouped (P : List (Monster × MacroText)) (m : Monster) (text : MacroText) :
    (groupedCM P).add m text = groupedCM (P ++ [(m, text)]) := by
  unfold groupedCM CompressedMacro.add
  by_cases ht : text = ""
  · rw [if_pos ht]
    subst ht
    congr 1
    rw [distinctTexts_append]
    simp only [if_pos rfl]
    apply List.map_congr_left
    intro t htmem
    have hne : t ≠ "" := ((mem_distinctTexts _ _).mp htmem).1
    rw [monstersOf_append]
    rw [if_neg (fun hc => hne hc.symm)]
    simp
  · rw [if_neg ht]
    simp only
    rw [alGet_map_fn]
    by_cases hmem : text ∈ distinctTexts P
    · rw [if_pos hmem]
      simp only
      congr 1
      rw [alSet_map_fn _ _ _ _ hmem (nodup_firstDedup _)]
      rw [distinctTexts_append, if_neg ht, if_pos hmem]
      apply List.map_congr_left
      intro x hx
      by_cases hxt : x = text
      · subst hxt
        rw [if_pos rfl, monstersOf_append, if_pos rfl]
      · rw [if_neg hxt, monstersOf_append, if_neg (fun hc => hxt hc.symm), List.append_nil]
    · rw [if_neg hmem]
      simp only
      congr 1
      rw [distinctTexts_append, if_neg ht, if_neg hmem, List.map_append]
      congr 1
      · apply List.map_congr_left
        intro x hx
        have hxt : x ≠ text := fun hx2 => hmem (hx2 ▸ hx)
        rw [monstersOf_append, if_neg (fun hc => hxt hc.symm), List.append_nil]
      · have hnm : text ∉ P.map Prod.snd :=
          fun hc => hmem ((mem_distinctTexts _ _).mpr ⟨ht, hc⟩)
        rw [List.map_cons, List.map_nil, monstersOf_append, if_pos rfl,
          monstersOf_eq_nil _ _ hnm, List.nil_append]

theorem addAll_grouped : ∀ (rest P : List (Monster × MacroText)),
    CompressedMacro.addAll (groupedCM P) rest = groupedCM (P ++ rest)
  | [], P => by simp [CompressedMacro.addAll]
  | p :: rest, P => by
    unfold CompressedMacro.addAll
    simp only [List.foldl_cons]
    rw [show (groupedCM P).add p.1 p.2 = groupedCM (P ++ [p]) from add_grouped P p.1 p.2]
    have h2 := addAll_grouped rest (P ++ [p])
    unfold CompressedMacro.addAll at h2
    rw [h2]
    simp

/-- Claim C4: compiling the monster-specific portion of a combat strategy
(the `CompressedMacro` fed, in map order, one (monster, rendered body) pair
per monster by `CombatStrategy.compile`) emits exactly one conditional per
distinct rendered non-empty body text, whose guard is the `" || "`-joined
disjunction of the `monsterid <id>` checks of all monsters whose resolved
bodies render to that same text, in first-appearance order: two monsters
with identical rendered bodies share one conditional, and a monster with a
different rendered body gets a separate conditional. -/
theorem c4_compressed_grouping (pairs : List (Monster × MacroText)) :
    (CompressedMacro.addAll ⟨[]⟩ pairs).compile = specCompressed pairs := by
  have h0 : (⟨[]⟩ : CompressedMacro) = groupedCM [] := by
    unfold groupedCM distinctTexts
    simp [firstDedup_nil]
  rw [h0, addAll_grouped, List.nil_append]
  unfold CompressedMacro.compile groupedCM specCompressed specConditional
  rw [List.map_map]
  rfl

/-! ### Song-loop lemmas (claim C7) -/

theorem popExtraSongs_unfold {E : Type} (songsLen cap : Nat) (extra : List E) :
    popExtraSongs songsLen cap extra =
      if songsLen + extra.length > cap then
        match extra with
        | [] => (extra, [])
        | a :: t =>
          ((popExtraSongs songsLen cap (a :: t).dropLast).1,
            t.getLastD a :: (popExtraSongs songsLen cap (a :: t).dropLast).2)
      else (extra, []) := by
  rw [popExtraSongs.eq_def]

theorem getLastD_mem_cons {E : Type} : ∀ (t : List E) (a : E), t.getLastD a ∈ a :: t
  | [], a => List.mem_cons_self a []
  | b :: t, a => by
    rw [List.getLastD_cons]
    rcases List.mem_cons.mp (getLastD_mem_cons t b) with h1 | h1
    · exact List.mem_cons.mpr (Or.inr (by rw [h1]; exact List.mem_cons_self b t))
    · exact List.mem_cons.mpr (Or.inr (List.mem_cons.mpr (Or.inr h1)))

/-- The removal loop stops only when the requested songs plus the remaining
extra songs fit the cap (provided the requested songs alone fit it). -/
theorem popExtraSongs_fits {E : Type} (songsLen cap : Nat) (hcap : songsLen ≤ cap)
    (extra : List E) : songsLen + (popExtraSongs songsLen cap extra).1.length ≤ cap := by
  generalize hn : extra.length = n
  induction n using Nat.strong_induction_on generalizing extra with
  | _ n ih =>
    rw [popExtraSongs_unfold]
    by_cases hgt : songsLen + extra.length > cap
    · rw [if_pos hgt]
      cases extra with
      | nil =>
        simp only [List.length_nil] at hgt
        show songsLen + (List.length ([] : List E)) ≤ cap
        simp only [List.length_nil]
        omega
      | cons a t =>
        show songsLen + (popExtraSongs songsLen cap (a :: t).dropLast).1.length ≤ cap
        apply ih ((a :: t).dropLast.length) ?_ (a :: t).dropLast rfl
        subst hn
        simp [List.length_dropLast]
    · rw [if_neg hgt]
      show songsLen + extra.length ≤ cap
      omega

/-- Every song removed by the loop came from the extra-song list. -/
theorem popExtraSongs_removed_mem {E : Type} (songsLen cap : Nat) (extra : List E) :
    ∀ e ∈ (popExtraSongs songsLen cap extra).2, e ∈ extra := by
  generalize hn : extra.length = n
  induction n using Nat.strong_induction_on generalizing extra with
  | _ n ih =>
    rw [popExtraSongs_unfold]
    by_cases hgt : songsLen + extra.length > cap
    · rw [if_pos hgt]
      cases extra with
      | nil =>
        intro e he
        exact absurd he (by simp)
      | cons a t =>
        intro e he
        have he2 : e = t.getLastD a ∨
            e ∈ (popExtraSongs songsLen cap (a :: t).dropLast).2 := List.mem_cons.mp he
        rcases he2 with he2 | he2
        · rw [he2]
          exact getLastD_mem_cons t a
        · have hm := ih ((a :: t).dropLast.length) (by subst hn; simp [List.length_dropLast])
            (a :: t).dropLast rfl e he2
          exact List.dropLast_subset _ hm
    · rw [if_neg hgt]
      intro e he
      exact absurd he (by simp)

/-- Claim C7: in `Engine.acquireEffects`, if the requested effects contain
strictly more songs than the dynamic cap `maxSongs()` (4 with Mariachi
Memory, 3 otherwise), the fatal error `"Too many AT songs"` is raised with
an empty action trace — before any effect is removed or applied; otherwise
no error is raised, the performed actions are exactly the removals of
active, non-requested songs popped by the loop followed by `ensureEffect`
for every requested effect, the loop stops only once the requested songs
plus the remaining active extra songs fit the cap, and every removed effect
was an active song not in the request. -/
theorem c7_acquireEffects (E : Type) [DecidableEq E] (mariachiMemory : Bool)
    (isSong : E → Bool) (active effects : List E) :
    ((effects.filter isSong).length > maxSongs mariachiMemory →
      acquireEffects mariachiMemory isSong active effects = ([], some "Too many AT songs")) ∧
    ((effects.filter isSong).length ≤ maxSongs mariachiMemory →
      (acquireEffects mariachiMemory isSong active effects).2 = none ∧
      (acquireEffects mariachiMemory isSong active effects).1 =
        ((popExtraSongs (effects.filter isSong).length (maxSongs mariachiMemory)
            (active.filter (fun e => isSong e && ¬(effects.filter isSong).contains e))).2.map
          EffAction.remove) ++ effects.map EffAction.ensure ∧
      ((effects.filter isSong).length +
        (popExtraSongs (effects.filter isSong).length (maxSongs mariachiMemory)
            (active.filter (fun e => isSong e && ¬(effects.filter isSong).contains e))).1.length ≤
        maxSongs mariachiMemory) ∧
      (∀ e ∈ (popExtraSongs (effects.filter isSong).length (maxSongs mariachiMemory)
            (active.filter (fun e => isSong e && ¬(effects.filter isSong).contains e))).2,
        e ∈ active ∧ isSong e = true ∧ e ∉ effects)) := by
  constructor
  · intro h
    unfold acquireEffects
    rw [if_pos h]
  · intro h
    unfold acquireEffects
    rw [if_neg (by omega)]
    refine ⟨rfl, rfl, popExtraSongs_fits _ _ h _, ?_⟩
    intro e he
    have hmem := popExtraSongs_removed_mem _ _ _ e he
    have hmf := List.mem_filter.mp hmem
    have hsong : isSong e = true := by
      have := hmf.2
      simp only [Bool.and_eq_true] at this
      exact this.1
    have hnc : ¬(effects.filter isSong).contains e = true := by
      have := hmf.2
      simp only [Bool.and_eq_true, decide_eq_true_eq] at this
      exact this.2
    refine ⟨hmf.1, hsong, ?_⟩
    intro hin
    exact hnc (List.elem_iff.mpr (List.mem_filter.mpr ⟨hin, hsong⟩))

/-- Witness for C7: with cap 3 (no Mariachi Memory), a request of four songs
raises `"Too many AT songs"` with nothing applied; a request of three songs
with four other active songs proceeds without error. -/
theorem c7_witness :
    acquireEffects false isSongW [1, 2, 11] [1, 2, 3, 4] = ([], some "Too many AT songs") ∧
    (acquireEffects false isSongW [1, 2, 3, 4] [5, 6, 7]).2 = none := by
  constructor
  · exact (c7_acquireEffects Nat false isSongW [1, 2, 11] [1, 2, 3, 4]).1 (by decide)
  · exact ((c7_acquireEffects Nat false isSongW [1, 2, 3, 4] [5, 6, 7]).2 (by decide)).1

/-! ### Claim C8 -/

/-- Claim C8: `Engine.available` consults only the completion of the tasks
directly named in `task.after`, never transitive dependencies: for tasks
`A(after=[B])` and `B(after=[C])` where `B.completed()` is true and
`C.completed()` is false, and `A` is not completed with `ready` absent or
returning true (and no skip limit in play, as in the claim's bare task
`A(after=[B])`), `available(A)` returns true. -/
theorem c8_available_direct (byName : String → Option TaskM) (attempts : Attempts)
    (tA tB tC : TaskM) (bname cname : String)
    (hA1 : tA.after = [bname]) (hB : byName bname = some tB)
    (hB1 : tB.after = [cname]) (hC : byName cname = some tC)
    (hBc : tB.completedNow = true) (hCc : tC.completedNow = false)
    (hAc : tA.completedNow = false)
    (hAr : tA.readyNow = none ∨ tA.readyNow = some true)
    (hAskip : tA.limit.bind (fun lim => lim.skip) = none) :
    available byName attempts tA = Except.ok true := by
  unfold available
  rw [hAskip]
  simp only [Option.isSome_none, Bool.false_eq_true, false_and, if_false]
  rw [hA1]
  unfold availableAfter
  rw [hB]
  simp only [hBc, not_true, if_neg, Bool.not_true]
  unfold availableAfter
  rcases hAr with h | h <;> simp [h, hAc]

/-- Witness for C8 at the concrete three-task engine. -/
theorem c8_witness : available byNameW emptyAttempts taskAW = Except.ok true :=
  c8_available_direct byNameW emptyAttempts taskAW taskBW taskCW "B" "C"
    (by decide) (by decide) (by decide) (by decide) (by decide) (by decide) (by decide)
    (Or.inl (by decide)) (by decide)

/-! ### Claim C1 -/

/-- Counterexample to claim C1 as stated: when a step of the execution
pipeline prior to `markAttempt` raises (here item acquisition), `execute`
unwinds without incrementing the attempt counter — there is no
`try`/`finally` around the pipeline — so the counter is not incremented
"exactly once ... whether ... any prior step of the execution pipeline
raises an error". -/
theorem c1_counterexample :
    (execute outcomesItemFailW taskPlainW emptyAttempts).2 =
      some "Task A was unable to acquire 1 widget" ∧
    (execute outcomesItemFailW taskPlainW emptyAttempts).1 "A" = none := by
  constructor <;> rfl

/-- Claim C1 (amended): the attempt counter of `task.name` is incremented
exactly once if and only if every pipeline step before `markAttempt`
(acquisition, outfit, combat setup, prepare, the task body with all its
wandering-noncombat repeats, and `post`) completes without raising — in
particular the wandering-noncombat loop does not increment it more than
once, and a later `checkLimits` error does not prevent the increment; when a
prior step raises, the counter is left unchanged.  Counters of other tasks
are never touched. -/
theorem c1_attempt_amended (outcomes : StepOutcomes) (task : TaskM) (attempts : Attempts) :
    (execute outcomes task attempts).1 task.name =
      (if preMarkErr outcomes = none then some ((attempts task.name).getD 0 + 1)
       else attempts task.name) ∧
    ∀ n, n ≠ task.name → (execute outcomes task attempts).1 n = attempts n := by
  constructor
  · unfold execute
    cases h : preMarkErr outcomes with
    | some err => simp
    | none => simp [markAttempt]
  · intro n hn
    unfold execute
    cases h : preMarkErr outcomes with
    | some err => simp
    | none => simp [markAttempt, hn]

/-- Witness for C1 (amended) at a concrete clean run: the counter of `A`
becomes 1 and the counter of `B` stays absent. -/
theorem c1_witness :
    (execute outcomesOkW taskPlainW emptyAttempts).1 "A" = some 1 ∧
    (execute outcomesOkW taskPlainW emptyAttempts).1 "B" = none := by
  constructor
  · exact ((c1_attempt_amended outcomesOkW taskPlainW emptyAttempts).1).trans (by decide)
  · exact ((c1_attempt_amended outcomesOkW taskPlainW emptyAttempts).2 "B" (by decide)).trans
      (by decide)

/-! ### Claim C2 -/

/-- Counterexample to claim C2 as stated: the guard postcondition check sits
outside the `if (!task.completed())` block of `checkLimits`, so for a task
that is completed after execution but whose guard postcondition evaluates to
false, `checkLimits` does raise an error — the claim asserts it raises none
and evaluates none of the checks. -/
theorem c2_counterexample :
    checkLimits taskGuardW (some 1) (taskGuardW.limit.bind (fun lim => lim.guard)) =
      some "Task A failed its guard. Please check what went wrong." := by
  decide

/-- Claim C2 (amended): the five threshold checks (`tries`, `soft`, `turns`,
`unready`, `completed`) are evaluated only if `task.completed()` is false
after execution, but the guard postcondition is evaluated regardless of
completion: for a completed task, `checkLimits` raises exactly when the
postcondition is present and false (the result is independent of every
threshold field), and raises nothing otherwise. -/
theorem c2_checkLimits_amended (task : TaskM) (attemptsVal : Option Nat)
    (postcondition : Option Bool) (hc : task.completedNow = true) :
    checkLimits task attemptsVal postcondition =
      (match task.limit with
       | none => none
       | some lim =>
         if postcondition = some false then
           some ("Task " ++ task.name ++ " failed its guard. Please check what went wrong." ++
             (match lim.message with
              | some m => " " ++ m
              | none => ""))
         else none) := by
  unfold checkLimits
  cases task.limit with
  | none => rfl
  | some lim => simp [hc]

/-- Witness for C2 (amended): a completed task whose `tries` threshold is
exceeded (3 allowed, 9 attempted) raises nothing when its guard passes. -/
theorem c2_witness : checkLimits taskGuardOkW (some 9) (some true) = none :=
  (c2_checkLimits_amended taskGuardOkW (some 9) (some true) (by decide)).trans (by decide)

/-! ### Claim C3 -/

/-- Claim C3 fails on the code; this theorem evaluates the code at the
failing input.  `CombatStrategy.clone` is documented as "Perform a deep
copy of this combat strategy", but its body `const result = { ...this }`
copies the `macros` and `actions` fields by reference: the clone and the
original share the same two `Map` objects (the subsequent `for` loops only
re-`set` the existing keys of those shared maps).  Consequently, adding an
action (or a macro) for a monster to the clone is visible through the
original strategy's maps: starting from a fresh strategy whose maps are
empty, after `clone()` and a single `action`/`macro` addition through the
clone, the original's action (resp. macro) map now contains the new entry,
contradicting the documented and specified independence. -/
theorem c3_clone_shares_maps :
    actionMapOf c3init.1 c3init.2 = [] ∧
    macroMapOf c3init.1 c3init.2 = [] ∧
    c3clone.2.actionsRef = c3init.2.actionsRef ∧
    c3clone.2.macrosRef = c3init.2.macrosRef ∧
    actionMapOf c3afterAction c3init.2 = [(⟨7⟩, "attack")] ∧
    macroMapOf c3afterMacroAdd c3init.2 = [(⟨7⟩, ["attack with weapon"])] := by
  decide

/-! ### Outfit solver: the extension order on slot assignments -/

theorem equipsExtends_refl (o : Outfit) : equipsExtends o o := fun _ _ h => h

theorem equipsExtends_trans {o1 o2 o3 : Outfit} (h1 : equipsExtends o1 o2)
    (h2 : equipsExtends o2 o3) : equipsExtends o1 o3 :=
  fun s i h => h2 s i (h1 s i h)

theorem alGet_none_of_not_has {α β : Type} [DecidableEq α] {l : List (α × β)} {k : α}
    (h : ¬alHas l k = true) : alGet l k = none := by
  unfold alHas at h
  cases hh : alGet l k with
  | none => rfl
  | some v => rw [hh] at h; simp at h

theorem extends_set_fresh {o : Outfit} {k : Slot} {v : Item}
    (h : alGet o.equips k = none) :
    equipsExtends o { o with equips := alSet o.equips k v } :=
  fun _ _ hs => alGet_alSet_preserves h hs

theorem ext_equipItemNone (o : Outfit) (i : Item) (slot : Option Slot) :
    equipsExtends o (equipItemNone o i slot).1 := by
  unfold equipItemNone
  split
  · exact equipsExtends_refl o
  · split
    · exact equipsExtends_refl o
    · split
      next hhas => exact equipsExtends_refl o
      next hhas => exact extends_set_fresh (alGet_none_of_not_has hhas)

theorem ext_equipNonAccessory (env : Env) (o : Outfit) (i : Item) (slot : Option Slot) :
    equipsExtends o (equipNonAccessory env o i slot).1 := by
  unfold equipNonAccessory
  dsimp only
  split_ifs with h1 h2 h3 h4 h5 h6
  · exact equipsExtends_refl o
  · exact equipsExtends_refl o
  · exact equipsExtends_refl o
  · exact equipsExtends_refl o
  · exact equipsExtends_refl o
  · exact equipsExtends_refl o
  · exact extends_set_fresh (alGet_none_of_not_has h3)

theorem ext_equipAccessory (env : Env) (o : Outfit) (i : Item) (slot : Option Slot) :
    equipsExtends o (equipAccessory env o i slot).1 := by
  unfold equipAccessory
  split
  · exact equipsExtends_refl o
  split
  · exact equipsExtends_refl o
  split
  · exact equipsExtends_refl o
  split
  · split
    next => exact equipsExtends_refl o
    next empty hfind =>
      have hp := List.find?_some hfind
      exact extends_set_fresh (alGet_none_of_not_has (of_decide_eq_true hp))
  · split
    next hhas => exact equipsExtends_refl o
    next hhas => exact extends_set_fresh (alGet_none_of_not_has hhas)

theorem ext_equipUsingDualWield (env : Env) (o : Outfit) (i : Item) (slot : Option Slot) :
    equipsExtends o (equipUsingDualWield env o i slot).1 := by
  unfold equipUsingDualWield
  split
  · exact equipsExtends_refl o
  split
  · exact equipsExtends_refl o
  split
  · exact equipsExtends_refl o
  split
  next hhas => exact equipsExtends_refl o
  next hhas =>
    split
    · exact equipsExtends_refl o
    split
    · exact equipsExtends_refl o
    split
    · exact equipsExtends_refl o
    · exact extends_set_fresh (alGet_none_of_not_has hhas)

theorem equips_equipFamiliar (env : Env) (o : Outfit) (f : Familiar) :
    (equipFamiliar env o f).1.equips = o.equips := by
  unfold equipFamiliar
  split_ifs <;> rfl

theorem ext_equipFamiliar (env : Env) (o : Outfit) (f : Familiar) :
    equipsExtends o (equipFamiliar env o f).1 := by
  intro s i h
  rw [equips_equipFamiliar]
  exact h

theorem ext_equipUsingFamiliar (env : Env) (o : Outfit) (i : Item) (slot : Option Slot) :
    equipsExtends o (equipUsingFamiliar env o i slot).1 := by
  unfold equipUsingFamiliar
  split
  · exact equipsExtends_refl o
  · split
    next => exact equipsExtends_refl o
    next f hf =>
      dsimp only
      split
      next h1 => exact equipsExtends_refl o
      next h1 =>
        split
        · exact equipsExtends_refl o
        · split
          · exact ext_equipFamiliar env o f
          · intro s2 i2 hs
            have hs2 : alGet (equipFamiliar env o f).1.equips s2 = some i2 := by
              rw [equips_equipFamiliar]
              exact hs
            have hn : alGet (equipFamiliar env o f).1.equips Slot.famSlot = none := by
              rw [equips_equipFamiliar]
              exact alGet_none_of_not_has h1
            exact alGet_alSet_preserves hn hs2

theorem ext_equipItem (env : Env) (o : Outfit) (i : Item) (slot : Option Slot) :
    equipsExtends o (equipItem env o i slot).1 := by
  have e1 := ext_equipNonAccessory env o i slot
  have e2 := equipsExtends_trans e1
    (ext_equipAccessory env (equipNonAccessory env o i slot).1 i slot)
  have e3 := equipsExtends_trans e2
    (ext_equipUsingDualWield env
      (equipAccessory env (equipNonAccessory env o i slot).1 i slot).1 i slot)
  have e4 := equipsExtends_trans e3
    (ext_equipUsingFamiliar env
      (equipUsingDualWield env
        (equipAccessory env (equipNonAccessory env o i slot).1 i slot).1 i slot).1 i slot)
  unfold equipItem
  dsimp only
  split
  · exact equipsExtends_refl o
  split
  · exact ext_equipItemNone o i slot
  split
  · exact equipsExtends_refl o
  split
  · exact e1
  split
  · exact e2
  split
  · exact e3
  split
  · exact e4
  · exact e4

theorem ext_equipItemsSlotGo (env : Env) (s : Slot) :
    ∀ (items : List Item) (o : Outfit) (reasons : List EquipResult),
      equipsExtends o (equipItemsSlotGo env s o items reasons).1
  | [], o, reasons => equipsExtends_refl o
  | i :: rest, o, reasons => by
    unfold equipItemsSlotGo
    dsimp only
    split
    · exact ext_equipItem env o i (some s)
    · exact equipsExtends_trans (ext_equipItem env o i (some s))
        (ext_equipItemsSlotGo env s rest (equipItem env o i (some s)).1 _)

theorem ext_equipItemsNoSlot (env : Env) :
    ∀ (items : List Item) (o : Outfit),
      equipsExtends o (equipItemsNoSlot env o items).1
  | [], o => equipsExtends_refl o
  | i :: rest, o => by
    unfold equipItemsNoSlot
    dsimp only
    split
    · exact equipsExtends_trans (ext_equipItem env o i none)
        (ext_equipItemsNoSlot env rest (equipItem env o i none).1)
    · exact ext_equipItem env o i none

theorem ext_equipOneOrManyItems (env : Env) (o : Outfit) (e : OneOrMany Item)
    (slot : Option Slot) : equipsExtends o (equipOneOrManyItems env o e slot).1 := by
  unfold equipOneOrManyItems
  cases e with
  | one i => exact ext_equipItem env o i slot
  | many l =>
    cases slot with
    | some s => exact ext_equipItemsSlotGo env s l o []
    | none => exact ext_equipItemsNoSlot env l o

/-! ### Outfit solver: a successful slotful equip commits its item (claim C9) -/

theorem commit_equipItemNone (o : Outfit) (i : Item) (s : Slot) :
    (equipItemNone o i (some s)).2.success = true →
    alGet (equipItemNone o i (some s)).1.equips s = some i := by
  unfold equipItemNone
  dsimp only
  split
  · intro h
    simp [failWith] at h
  · split
    next hhas =>
      intro h
      simp [failWith] at h
    next hhas =>
      intro _
      exact alGet_alSet_self _ _ _

theorem commit_equipNonAccessory (env : Env) (o : Outfit) (i : Item) (s : Slot) :
    (equipNonAccessory env o i (some s)).2.success = true →
    alGet (equipNonAccessory env o i (some s)).1.equips s = some i := by
  unfold equipNonAccessory
  dsimp only
  split
  · intro h
    simp [failWith] at h
  split
  next hmis =>
    intro h
    simp [failWith] at h
  next hmis =>
    have hs : s = env.itemSlot i := by
      simp only [decide_eq_true_eq, Decidable.not_not] at hmis
      exact hmis
    split
    · intro h
      simp [failWith] at h
    split
    · intro h
      simp [failWith] at h
    split
    · intro h
      simp [failWith] at h
    split
    · intro h
      simp [failWith] at h
    · intro _
      rw [hs]
      exact alGet_alSet_self _ _ _

theorem commit_equipAccessory (env : Env) (o : Outfit) (i : Item) (s : Slot) :
    (equipAccessory env o i (some s)).2.success = true →
    alGet (equipAccessory env o i (some s)).1.equips s = some i := by
  unfold equipAccessory
  split
  · intro h
    simp [failWith] at h
  split
  · intro h
    simp [failWith] at h
  split
  · intro h
    simp [failWith] at h
  split
  next heq => exact absurd heq (by simp)
  next s2 heq =>
    have hs : s = s2 := Option.some.inj heq
    split
    next hhas =>
      intro h
      simp [failWith] at h
    next hhas =>
      intro _
      rw [hs]
      exact alGet_alSet_self _ _ _

theorem commit_equipUsingDualWield (env : Env) (o : Outfit) (i : Item) (s : Slot) :
    (equipUsingDualWield env o i (some s)).2.success = true →
    alGet (equipUsingDualWield env o i (some s)).1.equips s = some i := by
  unfold equipUsingDualWield
  split
  next hcond =>
    intro h
    simp [failWith] at h
  next hcond =>
    have hsoff : s = Slot.offhand := by
      rcases Decidable.not_not.mp hcond with h1 | h1
      · cases h1
      · exact Option.some.inj h1
    split
    · intro h
      simp [failWith] at h
    split
    · intro h
      simp [failWith] at h
    split
    · intro h
      simp [failWith] at h
    split
    · intro h
      simp [failWith] at h
    split
    · intro h
      simp [failWith] at h
    split
    · intro h
      simp [failWith] at h
    · intro _
      rw [hsoff]
      exact alGet_alSet_self _ _ _

theorem commit_equipUsingFamiliar (env : Env) (o : Outfit) (i : Item) (s : Slot) :
    (equipUsingFamiliar env o i (some s)).2.success = true →
    alGet (equipUsingFamiliar env o i (some s)).1.equips s = some i := by
  unfold equipUsingFamiliar
  dsimp only
  split
  next hcond =>
    intro h
    simp [failWith] at h
  next hcond =>
    have hsf : s = Slot.famSlot := by
      rcases Decidable.not_not.mp hcond with h1 | h1
      · cases h1
      · exact Option.some.inj h1
    split
    next =>
      intro h
      simp [failWith] at h
    next f hf =>
      split
      · intro h
        simp [failWith] at h
      · split
        · intro h
          simp [failWith] at h
        · split
          · intro h
            simp [failWith] at h
          · intro _
            rw [hsf]
            exact alGet_alSet_self _ _ _

theorem commit_equipItem (env : Env) (o : Outfit) (i : Item) (s : Slot) :
    (equipItem env o i (some s)).2.success = true →
    alGet (equipItem env o i (some s)).1.equips s = some i := by
  unfold equipItem
  dsimp only
  split
  next hhe =>
    intro _
    unfold haveEquipped at hhe
    exact of_decide_eq_true hhe
  next hhe =>
    split
    · exact commit_equipItemNone o i s
    · split
      next havail =>
        intro h
        exact absurd h havail
      next havail =>
        split
        next hr1 =>
          intro _
          exact commit_equipNonAccessory env o i s hr1
        next hr1 =>
          split
          next hr2 =>
            intro _
            exact commit_equipAccessory env _ i s hr2
          next hr2 =>
            split
            next hr3 =>
              intro _
              exact commit_equipUsingDualWield env _ i s hr3
            next hr3 =>
              split
              next hr4 =>
                intro _
                exact commit_equipUsingFamiliar env _ i s hr4
              next hr4 =>
                intro h
                simp [failWith] at h

theorem equipItem_noop (env : Env) (o : Outfit) (i : Item) (slot : Option Slot)
    (h : haveEquipped o i slot = true) : equipItem env o i slot = (o, SUCCESS) := by
  unfold equipItem
  rw [if_pos h]

/-! ### Outfit solver: the two array-equip semantics (claim C6) -/

theorem mergeResults_success_iff (rs : List EquipResult) :
    (mergeResults rs).success = true ↔ ∀ r ∈ rs, r.success = true := by
  unfold mergeResults
  dsimp only
  split
  next hemp =>
    constructor
    · intro _ r hr
      by_contra hns
      have hrf : r ∈ rs.filter (fun r => ¬r.success) := by
        refine List.mem_filter.mpr ⟨hr, ?_⟩
        simp only [Bool.not_eq_true] at hns
        simp [hns]
      rw [List.isEmpty_iff.mp hemp] at hrf
      cases hrf
    · intro _
      rfl
  next hemp =>
    constructor
    · intro hfalse
      exact absurd hfalse (by simp [failWith])
    · intro hall
      exfalso
      have hne : rs.filter (fun r => ¬r.success) ≠ [] := by
        intro hnil
        exact hemp (by rw [hnil]; rfl)
      obtain ⟨r, hr⟩ := List.exists_mem_of_ne_nil _ hne
      have h2 := List.mem_filter.mp hr
      have h3 := hall r h2.1
      simp [h3] at h2

theorem mergeResults_fail_of_all_fail (rs : List EquipResult) (hne : rs ≠ [])
    (hall : ∀ r ∈ rs, r.success = false) : (mergeResults rs).success = false := by
  apply Bool.eq_false_iff.mpr
  intro htrue
  obtain ⟨r, hr⟩ := List.exists_mem_of_ne_nil _ hne
  have h1 := hall r hr
  have h2 := (mergeResults_success_iff rs).mp htrue r hr
  rw [h1] at h2
  cases h2

theorem noSlot_spec (env : Env) : ∀ (xs : List Item) (o : Outfit),
    ((equipItemsNoSlot env o xs).1, (equipItemsNoSlot env o xs).2.success) =
      claimAllOf env o xs
  | [], _ => rfl
  | i :: rest, o => by
    unfold equipItemsNoSlot claimAllOf
    dsimp only
    by_cases hsucc : (equipItem env o i none).2.success = true
    · rw [if_pos hsucc, if_pos hsucc]
      exact noSlot_spec env rest (equipItem env o i none).1
    · rw [if_neg hsucc, if_neg hsucc]
      have hf : (equipItem env o i none).2.success = false := Bool.eq_false_iff.mpr hsucc
      rw [hf]

theorem slotGo_spec (env : Env) (s : Slot) :
    ∀ (xs : List Item) (o : Outfit) (reasons : List EquipResult),
      (∀ r ∈ reasons, r.success = false) → (reasons = [] → xs ≠ []) →
      ((equipItemsSlotGo env s o xs reasons).1,
          (equipItemsSlotGo env s o xs reasons).2.success) =
        claimFirstOf env o s xs
  | [], o, reasons => by
    intro hall hne
    unfold equipItemsSlotGo claimFirstOf
    have hrne : reasons ≠ [] := fun h => (hne h) rfl
    dsimp only
    rw [mergeResults_fail_of_all_fail reasons hrne hall]
  | i :: rest, o, reasons => by
    intro hall hne
    unfold equipItemsSlotGo claimFirstOf
    dsimp only
    by_cases hsucc : (equipItem env o i (some s)).2.success = true
    · rw [if_pos hsucc, if_pos hsucc]
      rfl
    · rw [if_neg hsucc, if_neg hsucc]
      apply slotGo_spec env s rest (equipItem env o i (some s)).1
        (reasons ++ [(equipItem env o i (some s)).2])
      · intro r hr
        rcases List.mem_append.mp hr with h1 | h1
        · exact hall r h1
        · have h2 : r = (equipItem env o i (some s)).2 := by simpa using h1
          rw [h2]
          exact Bool.eq_false_iff.mpr hsucc
      · intro happ
        exact absurd happ (by simp)

/-- Claim C6: equipping an array of items without a slot returns true iff
every entry equips successfully, attempting entries in order and stopping at
the first failure; with a slot, entries are attempted in order, the first
entry that equips wins (no later entry is attempted), and the call fails
only when every entry fails.  Both behaviours are stated as equality with
the claim-side reference algorithms `claimAllOf` and `claimFirstOf` (for a
nonempty array; the empty array with a slot merges an empty failure list and
is thus vacuously successful). -/
theorem c6_array_equip (env : Env) (o : Outfit) (s : Slot) (xs : List Item) :
    (Outfit.equip env o (Equippable.items xs) none = claimAllOf env o xs) ∧
    (xs ≠ [] →
      Outfit.equip env o (Equippable.items xs) (some s) = claimFirstOf env o s xs) := by
  constructor
  · show ((equipItemsNoSlot env o xs).1, (equipItemsNoSlot env o xs).2.success) = _
    exact noSlot_spec env xs o
  · intro hne
    show ((equipItemsSlotGo env s o xs []).1, (equipItemsSlotGo env s o xs []).2.success) = _
    exact slotGo_spec env s xs o [] (by simp) (fun _ => hne)

/-- Witness for C6 at concrete arrays: a hat and an accessory equip together
without a slot; with the acc2 slot requested, the first candidate wins. -/
theorem c6_witness :
    (Outfit.equip envW outfitW (Equippable.items [⟨1⟩, ⟨2⟩]) none =
      claimAllOf envW outfitW [⟨1⟩, ⟨2⟩]) ∧
    (Outfit.equip envW outfitHatW (Equippable.items [⟨4⟩, ⟨2⟩]) (some Slot.acc2) =
      claimFirstOf envW outfitHatW Slot.acc2 [⟨4⟩, ⟨2⟩]) :=
  ⟨(c6_array_equip envW outfitW Slot.acc2 [⟨1⟩, ⟨2⟩]).1,
    (c6_array_equip envW outfitHatW Slot.acc2 [⟨4⟩, ⟨2⟩]).2 (by decide)⟩

/-- Claim C9: equipping a single item into a given slot is idempotent: if
`equip(item, slot)` succeeds on an outfit, calling it again immediately
succeeds as well and returns the outfit completely unchanged (slot
assignments, familiar, modes, avoid list — the whole record), because an
already-satisfied request short-circuits as a no-op success. -/
theorem c9_equip_idempotent (env : Env) (o : Outfit) (i : Item) (s : Slot)
    (h : (Outfit.equip env o (Equippable.item i) (some s)).2 = true) :
    Outfit.equip env ((Outfit.equip env o (Equippable.item i) (some s)).1)
        (Equippable.item i) (some s) =
      ((Outfit.equip env o (Equippable.item i) (some s)).1, true) := by
  have hsucc : (equipItem env o i (some s)).2.success = true := h
  have hc := commit_equipItem env o i s hsucc
  have hhe : haveEquipped ((equipItem env o i (some s)).1) i (some s) = true := by
    unfold haveEquipped
    exact decide_eq_true hc
  show ((equipItem env ((equipItem env o i (some s)).1) i (some s)).1,
      (equipItem env ((equipItem env o i (some s)).1) i (some s)).2.success) = _
  rw [equipItem_noop env _ i (some s) hhe]
  rfl

/-- Witness for C9: equipping hat item 1 into the hat slot of the empty
outfit succeeds, and repeating the call returns the same outfit with
success. -/
theorem c9_witness :
    Outfit.equip envW ((Outfit.equip envW outfitW (Equippable.item ⟨1⟩) (some Slot.hat)).1)
        (Equippable.item ⟨1⟩) (some Slot.hat) =
      ((Outfit.equip envW outfitW (Equippable.item ⟨1⟩) (some Slot.hat)).1, true) :=
  c9_equip_idempotent envW outfitW ⟨1⟩ Slot.hat (by decide)

/-! ### Outfit solver: the spec-merge invariant (claims C5 and C10) -/

theorem LogOk_init (o : Outfit) : LogOk o (o, []) :=
  ⟨equipsExtends_refl o, by intro e he; cases he⟩

theorem LogOk_logPush {o : Outfit} {st : SpecState} {r : Outfit × EquipResult}
    (h : LogOk o st) (hr : equipsExtends st.1 r.1) : LogOk o (logPush st r) := by
  constructor
  · exact equipsExtends_trans h.1 hr
  · intro e he
    unfold logPush at he
    rcases List.mem_append.mp he with h1 | h1
    · exact equipsExtends_trans (h.2 e h1) hr
    · have h2 : e = r := by simpa using h1
      rw [h2]
      exact equipsExtends_refl r.1

theorem LogOk_update {o : Outfit} {st : SpecState} (o2 : Outfit)
    (h : LogOk o st) (heq : o2.equips = st.1.equips) : LogOk o (o2, st.2) := by
  have hx : equipsExtends st.1 o2 := fun s i hs => by rw [heq]; exact hs
  exact ⟨equipsExtends_trans h.1 hx, fun e he => equipsExtends_trans (h.2 e he) hx⟩

theorem LogOk_slotStep {o : Outfit} {st : SpecState} (env : Env)
    (entry : Option (OneOrMany Item)) (s : Slot) (h : LogOk o st) :
    LogOk o (slotStep env entry s st) := by
  unfold slotStep
  cases entry with
  | none => exact h
  | some e => exact LogOk_logPush h (ext_equipOneOrManyItems env st.1 e (some s))

theorem LogOk_foldlEquip (env : Env) :
    ∀ (items : List Item) {o : Outfit} {st : SpecState}, LogOk o st →
      LogOk o (items.foldl (fun st i => logPush st (equipItem env st.1 i none)) st)
  | [], _, _, h => h
  | i :: rest, o, st, h => by
    simp only [List.foldl_cons]
    exact LogOk_foldlEquip env rest (LogOk_logPush h (ext_equipItem env st.1 i none))

theorem LogOk_stagePlacements (env : Env) (spec : OutfitSpec) {o : Outfit} {st : SpecState}
    (h : LogOk o st) : LogOk o (stagePlacements env spec st) := by
  unfold stagePlacements
  dsimp only
  have h11 := LogOk_foldlEquip env spec.equip
    (LogOk_slotStep env spec.famequip Slot.famSlot
      (LogOk_slotStep env spec.acc3 Slot.acc3
        (LogOk_slotStep env spec.acc2 Slot.acc2
          (LogOk_slotStep env spec.acc1 Slot.acc1
            (LogOk_slotStep env spec.pants Slot.pants
              (LogOk_slotStep env spec.shirt Slot.shirt
                (LogOk_slotStep env spec.offhand Slot.offhand
                  (LogOk_slotStep env spec.weapon Slot.weapon
                    (LogOk_slotStep env spec.back Slot.back
                      (LogOk_slotStep env spec.hat Slot.hat h))))))))))
  cases spec.familiar with
  | none => exact h11
  | some f => exact LogOk_logPush h11 (ext_equipFamiliar env _ f)

theorem LogOk_stageStatic (spec : OutfitSpec) {o : Outfit} {st : SpecState}
    (h : LogOk o st) : LogOk o (stageStatic spec st) := by
  unfold stageStatic
  dsimp only
  exact LogOk_update _ (LogOk_update _ (LogOk_update _ h rfl) rfl) rfl

theorem ext_setModesVerbose (o : Outfit) (m : Modes) :
    equipsExtends o (setModesVerbose o m).1 :=
  fun _ _ hs => hs

theorem LogOk_stageModes (spec : OutfitSpec) {o : Outfit} {st : SpecState}
    (h : LogOk o st) : LogOk o (stageModes spec st) := by
  unfold stageModes
  cases spec.modes with
  | none => exact h
  | some m => exact LogOk_logPush h (ext_setModesVerbose st.1 m)

theorem equips_equipRider (env : Env) (o : Outfit) (t : OneOrMany Familiar) (s : Slot) :
    (equipRider env o t s).1.equips = o.equips := by
  unfold equipRider
  dsimp only
  split
  · split <;> rfl
  · split <;> rfl

theorem ext_equipRider (env : Env) (o : Outfit) (t : OneOrMany Familiar) (s : Slot) :
    equipsExtends o (equipRider env o t s).1 := by
  intro s2 i hs
  rw [equips_equipRider]
  exact hs

theorem LogOk_stageRiders (env : Env) (spec : OutfitSpec) {o : Outfit} {st : SpecState}
    (h : LogOk o st) : LogOk o (stageRiders env spec st) := by
  unfold stageRiders
  cases spec.riders with
  | none => exact h
  | some rs =>
    dsimp only
    cases rs.buddyBjorn with
    | none =>
      cases rs.crownOfThrones with
      | none => exact h
      | some t => exact LogOk_logPush h (ext_equipRider env st.1 t Slot.crownOfThrones)
    | some t =>
      cases rs.crownOfThrones with
      | none => exact LogOk_logPush h (ext_equipRider env st.1 t Slot.buddyBjorn)
      | some t2 =>
        exact LogOk_logPush (LogOk_logPush h (ext_equipRider env st.1 t Slot.buddyBjorn))
          (ext_equipRider env _ t2 Slot.crownOfThrones)

theorem equips_addBonuses : ∀ (items : List (Item × Int)) (o : Outfit),
    (addBonuses o items).equips = o.equips
  | [], _ => rfl
  | p :: rest, o => by
    show (addBonuses { o with
      bonuses := alSet o.bonuses p.1 (p.2 + getBonus o p.1) } rest).equips = o.equips
    rw [equips_addBonuses rest _]

theorem LogOk_stageBonuses (spec : OutfitSpec) {o : Outfit} {st : SpecState}
    (h : LogOk o st) : LogOk o (stageBonuses spec st) := by
  unfold stageBonuses
  cases spec.bonuses with
  | none => exact h
  | some bs => exact LogOk_update _ h (equips_addBonuses bs st.1)

theorem LogOk_stageHooks (spec : OutfitSpec) {o : Outfit} {st : SpecState}
    (h : LogOk o st) : LogOk o (stageHooks spec st) := by
  unfold stageHooks
  dsimp only
  exact LogOk_update _ (LogOk_update _ h rfl) rfl

theorem LogOk_equipSpecLog (env : Env) (o : Outfit) (spec : OutfitSpec) :
    LogOk o (equipSpecLog env o spec) := by
  unfold equipSpecLog
  exact LogOk_stageHooks spec (LogOk_stageBonuses spec (LogOk_stageRiders env spec
    (LogOk_stageModes spec (LogOk_stageStatic spec
      (LogOk_stagePlacements env spec (LogOk_init o))))))

/-- Claim C10: the slot-to-item assignment of an outfit is write-once
through every equip entry point — a single item (with or without a slot),
the sentinel none-item, accessories, the dual-wield fallback, the
familiar-carry fallback, item arrays, spec merges and outfit merges: whether
the call reports success or failure, every slot already assigned keeps
exactly its item (new assignments can only fill previously empty slots). -/
theorem c10_write_once (env : Env) (o : Outfit) (thing : Equippable) (slot : Option Slot) :
    equipsExtends o (equipVerbose env o thing slot).1 := by
  cases thing with
  | items l =>
    cases slot with
    | some s => exact ext_equipItemsSlotGo env s l o []
    | none => exact ext_equipItemsNoSlot env l o
  | item i => exact ext_equipItem env o i slot
  | fam f => exact ext_equipFamiliar env o f
  | fit other => exact (LogOk_equipSpecLog env o other.toSpec).1
  | spc s2 => exact (LogOk_equipSpecLog env o s2).1

/-- Witness for C10: after equipping a weapon into an outfit whose hat slot
is already assigned, the hat assignment is untouched. -/
theorem c10_witness :
    alGet (equipVerbose envW outfitHatW (Equippable.item ⟨3⟩) none).1.equips Slot.hat =
      some ⟨4⟩ :=
  c10_write_once envW outfitHatW (Equippable.item ⟨3⟩) none Slot.hat ⟨4⟩ (by decide)

/-! ### Outfit solver: item placements touch only equips and familiar (claim C5) -/

theorem efShape_refl (o : Outfit) : efShape o o :=
  ⟨o.equips, o.familiar, rfl⟩

theorem efShape_trans {o r q : Outfit} (h1 : efShape o r) (h2 : efShape r q) : efShape o q := by
  obtain ⟨e1, f1, rfl⟩ := h1
  obtain ⟨e2, f2, rfl⟩ := h2
  exact ⟨e2, f2, rfl⟩

theorem shape_equipItemNone (o : Outfit) (i : Item) (slot : Option Slot) :
    efShape o (equipItemNone o i slot).1 := by
  unfold equipItemNone
  split
  · exact efShape_refl o
  · split
    · exact efShape_refl o
    · split
      · exact efShape_refl o
      · exact ⟨_, o.familiar, rfl⟩

theorem shape_equipNonAccessory (env : Env) (o : Outfit) (i : Item) (slot : Option Slot) :
    efShape o (equipNonAccessory env o i slot).1 := by
  unfold equipNonAccessory
  dsimp only
  split_ifs
  · exact efShape_refl o
  · exact efShape_refl o
  · exact efShape_refl o
  · exact efShape_refl o
  · exact efShape_refl o
  · exact efShape_refl o
  · exact ⟨_, o.familiar, rfl⟩

theorem shape_equipAccessory (env : Env) (o : Outfit) (i : Item) (slot : Option Slot) :
    efShape o (equipAccessory env o i slot).1 := by
  unfold equipAccessory
  split
  · exact efShape_refl o
  split
  · exact efShape_refl o
  split
  · exact efShape_refl o
  split
  · split
    · exact efShape_refl o
    · exact ⟨_, o.familiar, rfl⟩
  · split
    · exact efShape_refl o
    · exact ⟨_, o.familiar, rfl⟩

theorem shape_equipUsingDualWield (env : Env) (o : Outfit) (i : Item) (slot : Option Slot) :
    efShape o (equipUsingDualWield env o i slot).1 := by
  unfold equipUsingDualWield
  split
  · exact efShape_refl o
  split
  · exact efShape_refl o
  split
  · exact efShape_refl o
  split
  · exact efShape_refl o
  split
  · exact efShape_refl o
  split
  · exact efShape_refl o
  split
  · exact efShape_refl o
  · exact ⟨_, o.familiar, rfl⟩

theorem shape_equipFamiliar (env : Env) (o : Outfit) (f : Familiar) :
    efShape o (equipFamiliar env o f).1 := by
  unfold equipFamiliar
  split_ifs <;> first
    | exact efShape_refl o
    | exact ⟨o.equips, _, rfl⟩

theorem shape_equipUsingFamiliar (env : Env) (o : Outfit) (i : Item) (slot : Option Slot) :
    efShape o (equipUsingFamiliar env o i slot).1 := by
  unfold equipUsingFamiliar
  split
  · exact efShape_refl o
  · split
    next => exact efShape_refl o
    next f hf =>
      dsimp only
      split
      · exact efShape_refl o
      · split
        · exact efShape_refl o
        · split
          · exact shape_equipFamiliar env o f
          · obtain ⟨e1, f1, heq⟩ := shape_equipFamiliar env o f
            refine ⟨alSet (equipFamiliar env o f).1.equips Slot.famSlot i, f1, ?_⟩
            rw [heq]

theorem shape_equipItem (env : Env) (o : Outfit) (i : Item) (slot : Option Slot) :
    efShape o (equipItem env o i slot).1 := by
  have s1 := shape_equipNonAccessory env o i slot
  have s2 := efShape_trans s1
    (shape_equipAccessory env (equipNonAccessory env o i slot).1 i slot)
  have s3 := efShape_trans s2
    (shape_equipUsingDualWield env
      (equipAccessory env (equipNonAccessory env o i slot).1 i slot).1 i slot)
  have s4 := efShape_trans s3
    (shape_equipUsingFamiliar env
      (equipUsingDualWield env
        (equipAccessory env (equipNonAccessory env o i slot).1 i slot).1 i slot).1 i slot)
  unfold equipItem
  dsimp only
  split
  · exact efShape_refl o
  split
  · exact shape_equipItemNone o i slot
  split
  · exact efShape_refl o
  split
  · exact s1
  split
  · exact s2
  split
  · exact s3
  split
  · exact s4
  · exact s4

theorem shape_equipItemsSlotGo (env : Env) (s : Slot) :
    ∀ (items : List Item) (o : Outfit) (reasons : List EquipResult),
      efShape o (equipItemsSlotGo env s o items reasons).1
  | [], o, _ => efShape_refl o
  | i :: rest, o, reasons => by
    unfold equipItemsSlotGo
    dsimp only
    split
    · exact shape_equipItem env o i (some s)
    · exact efShape_trans (shape_equipItem env o i (some s))
        (shape_equipItemsSlotGo env s rest (equipItem env o i (some s)).1 _)

theorem shape_equipItemsNoSlot (env : Env) :
    ∀ (items : List Item) (o : Outfit), efShape o (equipItemsNoSlot env o items).1
  | [], o => efShape_refl o
  | i :: rest, o => by
    unfold equipItemsNoSlot
    dsimp only
    split
    · exact efShape_trans (shape_equipItem env o i none)
        (shape_equipItemsNoSlot env rest (equipItem env o i none).1)
    · exact shape_equipItem env o i none

theorem shape_equipOneOrManyItems (env : Env) (o : Outfit) (e : OneOrMany Item)
    (slot : Option Slot) : efShape o (equipOneOrManyItems env o e slot).1 := by
  unfold equipOneOrManyItems
  cases e with
  | one i => exact shape_equipItem env o i slot
  | many l =>
    cases slot with
    | some s => exact shape_equipItemsSlotGo env s l o []
    | none => exact shape_equipItemsNoSlot env l o

theorem shape_slotStep (env : Env) (entry : Option (OneOrMany Item)) (s : Slot)
    (st : SpecState) : efShape st.1 (slotStep env entry s st).1 := by
  unfold slotStep
  cases entry with
  | none => exact efShape_refl st.1
  | some e => exact shape_equipOneOrManyItems env st.1 e (some s)

theorem shape_foldlEquip (env : Env) :
    ∀ (items : List Item) (st : SpecState),
      efShape st.1 ((items.foldl (fun st i => logPush st (equipItem env st.1 i none)) st)).1
  | [], st => efShape_refl st.1
  | i :: rest, st => by
    simp only [List.foldl_cons]
    exact efShape_trans (shape_equipItem env st.1 i none)
      (shape_foldlEquip env rest (logPush st (equipItem env st.1 i none)))

theorem shape_stagePlacements (env : Env) (spec : OutfitSpec) (st : SpecState) :
    efShape st.1 (stagePlacements env spec st).1 := by
  unfold stagePlacements
  dsimp only
  cases spec.familiar with
  | none =>
    refine efShape_trans (shape_slotStep env spec.hat Slot.hat st) ?_
    refine efShape_trans (shape_slotStep env spec.back Slot.back _) ?_
    refine efShape_trans (shape_slotStep env spec.weapon Slot.weapon _) ?_
    refine efShape_trans (shape_slotStep env spec.offhand Slot.offhand _) ?_
    refine efShape_trans (shape_slotStep env spec.shirt Slot.shirt _) ?_
    refine efShape_trans (shape_slotStep env spec.pants Slot.pants _) ?_
    refine efShape_trans (shape_slotStep env spec.acc1 Slot.acc1 _) ?_
    refine efShape_trans (shape_slotStep env spec.acc2 Slot.acc2 _) ?_
    refine efShape_trans (shape_slotStep env spec.acc3 Slot.acc3 _) ?_
    refine efShape_trans (shape_slotStep env spec.famequip Slot.famSlot _) ?_
    exact shape_foldlEquip env spec.equip _
  | some f =>
    refine efShape_trans (shape_slotStep env spec.hat Slot.hat st) ?_
    refine efShape_trans (shape_slotStep env spec.back Slot.back _) ?_
    refine efShape_trans (shape_slotStep env spec.weapon Slot.weapon _) ?_
    refine efShape_trans (shape_slotStep env spec.offhand Slot.offhand _) ?_
    refine efShape_trans (shape_slotStep env spec.shirt Slot.shirt _) ?_
    refine efShape_trans (shape_slotStep env spec.pants Slot.pants _) ?_
    refine efShape_trans (shape_slotStep env spec.acc1 Slot.acc1 _) ?_
    refine efShape_trans (shape_slotStep env spec.acc2 Slot.acc2 _) ?_
    refine efShape_trans (shape_slotStep env spec.acc3 Slot.acc3 _) ?_
    refine efShape_trans (shape_slotStep env spec.famequip Slot.famSlot _) ?_
    refine efShape_trans (shape_foldlEquip env spec.equip _) ?_
    exact shape_equipFamiliar env _ f

/-! ### Outfit solver: what each later merge stage leaves behind (claim C5) -/

theorem fst_stageStatic (spec : OutfitSpec) (st : SpecState) :
    (stageStatic spec st).1 =
      { st.1 with
        avoid := st.1.avoid ++ spec.avoid,
        skipDefaults := st.1.skipDefaults || spec.skipDefaults.getD false,
        modifier := st.1.modifier ++ modifierList spec } := rfl

theorem snd_stageStatic (spec : OutfitSpec) (st : SpecState) :
    (stageStatic spec st).2 = st.2 := rfl

theorem fst_stageModes (spec : OutfitSpec) (st : SpecState) :
    (stageModes spec st).1 =
      (match spec.modes with
       | none => st.1
       | some m => { st.1 with modes := mergedModes st.1.modes m }) := by
  unfold stageModes
  cases spec.modes <;> rfl

theorem shape_equipRider (env : Env) (o : Outfit) (t : OneOrMany Familiar) (s : Slot) :
    ∃ rd, (equipRider env o t s).1 = { o with riders := rd } := by
  unfold equipRider
  dsimp only
  split
  · split
    · exact ⟨o.riders, rfl⟩
    · exact ⟨o.riders, rfl⟩
  · split
    · exact ⟨_, rfl⟩
    · exact ⟨o.riders, rfl⟩

theorem ridersExt_equipRider (env : Env) (o : Outfit) (t : OneOrMany Familiar) (s : Slot) :
    ∀ sl f0, alGet o.riders sl = some f0 →
      alGet (equipRider env o t s).1.riders sl = some f0 := by
  intro sl f0 hs
  unfold equipRider
  dsimp only
  split
  · split
    · exact hs
    · exact hs
  · next hcur =>
      split
      · exact alGet_alSet_preserves hcur hs
      · exact hs

theorem fst_stageRiders (env : Env) (spec : OutfitSpec) (st : SpecState) :
    ∃ rd, (stageRiders env spec st).1 = { st.1 with riders := rd } := by
  unfold stageRiders
  cases spec.riders with
  | none => exact ⟨st.1.riders, rfl⟩
  | some rs =>
    dsimp only
    cases rs.buddyBjorn with
    | none =>
      cases rs.crownOfThrones with
      | none => exact ⟨st.1.riders, rfl⟩
      | some t => exact shape_equipRider env st.1 t Slot.crownOfThrones
    | some t =>
      cases rs.crownOfThrones with
      | none => exact shape_equipRider env st.1 t Slot.buddyBjorn
      | some t2 =>
        dsimp only
        obtain ⟨rd1, h1⟩ := shape_equipRider env st.1 t Slot.buddyBjorn
        obtain ⟨rd2, h2⟩ := shape_equipRider env
          (logPush st (equipRider env st.1 t Slot.buddyBjorn)).1 t2 Slot.crownOfThrones
        refine ⟨rd2, ?_⟩
        show (equipRider env (logPush st (equipRider env st.1 t Slot.buddyBjorn)).1 t2
          Slot.crownOfThrones).1 = _
        rw [h2]
        show ({ (equipRider env st.1 t Slot.buddyBjorn).1 with riders := rd2 } : Outfit) = _
        rw [h1]

theorem ridersExt_stageRiders (env : Env) (spec : OutfitSpec) (st : SpecState) :
    ∀ sl f0, alGet st.1.riders sl = some f0 →
      alGet (stageRiders env spec st).1.riders sl = some f0 := by
  intro sl f0 hs
  unfold stageRiders
  cases spec.riders with
  | none => exact hs
  | some rs =>
    dsimp only
    cases rs.buddyBjorn with
    | none =>
      cases rs.crownOfThrones with
      | none => exact hs
      | some t => exact ridersExt_equipRider env st.1 t Slot.crownOfThrones sl f0 hs
    | some t =>
      cases rs.crownOfThrones with
      | none => exact ridersExt_equipRider env st.1 t Slot.buddyBjorn sl f0 hs
      | some t2 =>
        exact ridersExt_equipRider env _ t2 Slot.crownOfThrones sl f0
          (ridersExt_equipRider env st.1 t Slot.buddyBjorn sl f0 hs)

theorem addBonuses_eq : ∀ (items : List (Item × Int)) (o : Outfit),
    addBonuses o items = { o with bonuses := bonusFold o.bonuses items }
  | [], _ => rfl
  | p :: rest, o => by
    show addBonuses
      { o with bonuses := alSet o.bonuses p.1 (p.2 + getBonus o p.1) } rest = _
    rw [addBonuses_eq rest _]
    rfl

theorem fst_stageBonuses (spec : OutfitSpec) (st : SpecState) :
    (stageBonuses spec st).1 =
      (match spec.bonuses with
       | none => st.1
       | some bs => { st.1 with bonuses := bonusFold st.1.bonuses bs }) := by
  unfold stageBonuses
  cases spec.bonuses with
  | none => rfl
  | some bs => exact addBonuses_eq bs st.1

theorem fst_stageHooks (spec : OutfitSpec) (st : SpecState) :
    (stageHooks spec st).1 =
      { st.1 with
        preActions := st.1.preActions ++ spec.beforeDress,
        postActions := st.1.postActions ++ spec.afterDress } := rfl

/-- All merge effects of `equipSpec` on the outfit fields other than the
slot map, familiar, and riders, which change according to the placements
performed: the avoid list, modifier goals, skipDefaults flag, modes, bonus
weights and hooks are merged exactly as the spec dictates, regardless of
whether any sub-placement failed. -/
theorem fields_equipSpecLog (env : Env) (o : Outfit) (spec : OutfitSpec) :
    ∃ e f rd, (equipSpecLog env o spec).1 =
      { o with
        equips := e, familiar := f, riders := rd,
        avoid := o.avoid ++ spec.avoid,
        modifier := o.modifier ++ modifierList spec,
        skipDefaults := o.skipDefaults || spec.skipDefaults.getD false,
        modes := (match spec.modes with
          | none => o.modes
          | some m => mergedModes o.modes m),
        bonuses := (match spec.bonuses with
          | none => o.bonuses
          | some bs => bonusFold o.bonuses bs),
        preActions := o.preActions ++ spec.beforeDress,
        postActions := o.postActions ++ spec.afterDress } := by
  obtain ⟨eP, fP, hP⟩ :=
    shape_stagePlacements env spec (o, ([] : List (Outfit × EquipResult)))
  obtain ⟨rd, hR⟩ := fst_stageRiders env spec
    (stageModes spec (stageStatic spec (stagePlacements env spec (o, []))))
  refine ⟨eP, fP, rd, ?_⟩
  unfold equipSpecLog
  rw [fst_stageHooks, fst_stageBonuses, hR, fst_stageModes, fst_stageStatic, hP]
  cases spec.modes <;> cases spec.bonuses <;> rfl

/-- Claim C5: `Outfit.equipSpec` merges every sub-field sequentially; the
overall result succeeds exactly when every logged sub-placement succeeded
(the AND of every sub-placement), but nothing is rolled back on a failure:
the final outfit extends the slot assignments of the original outfit and of
the post-state of every sub-placement (so every placement committed before
or after a failing one stays committed), already-assigned riders stay
assigned, and the avoid list, modifier goals, skipDefaults flag, modes,
bonus weights and dress hooks are merged exactly as the spec dictates
whether or not the overall result is a failure. -/
theorem c5_equipSpec_nonatomic (env : Env) (o : Outfit) (spec : OutfitSpec) :
    (Outfit.equipSpec env o spec).1 = (equipSpecLog env o spec).1 ∧
    ((Outfit.equipSpec env o spec).2.success = true ↔
      ∀ e ∈ (equipSpecLog env o spec).2, e.2.success = true) ∧
    (∀ e ∈ (equipSpecLog env o spec).2,
      equipsExtends e.1 (equipSpecLog env o spec).1) ∧
    equipsExtends o (equipSpecLog env o spec).1 ∧
    (∀ sl f0, alGet o.riders sl = some f0 →
      alGet (equipSpecLog env o spec).1.riders sl = some f0) ∧
    (equipSpecLog env o spec).1.avoid = o.avoid ++ spec.avoid ∧
    (equipSpecLog env o spec).1.modifier = o.modifier ++ modifierList spec ∧
    (equipSpecLog env o spec).1.skipDefaults =
      (o.skipDefaults || spec.skipDefaults.getD false) ∧
    (equipSpecLog env o spec).1.modes =
      (match spec.modes with
       | none => o.modes
       | some m => mergedModes o.modes m) ∧
    (equipSpecLog env o spec).1.bonuses =
      (match spec.bonuses with
       | none => o.bonuses
       | some bs => bonusFold o.bonuses bs) ∧
    (equipSpecLog env o spec).1.preActions = o.preActions ++ spec.beforeDress ∧
    (equipSpecLog env o spec).1.postActions = o.postActions ++ spec.afterDress := by
  obtain ⟨e, f, rd, hfields⟩ := fields_equipSpecLog env o spec
  have hlog := LogOk_equipSpecLog env o spec
  refine ⟨rfl, ?_, hlog.2, hlog.1, ?_, ?_, ?_, ?_, ?_, ?_, ?_, ?_⟩
  · have hm := mergeResults_success_iff ((equipSpecLog env o spec).2.map Prod.snd)
    constructor
    · intro h e2 he2
      exact hm.mp h e2.2 (List.mem_map_of_mem Prod.snd he2)
    · intro h
      apply hm.mpr
      intro x hx
      obtain ⟨e2, he2, rfl⟩ := List.mem_map.mp hx
      exact h e2 he2
  · intro sl f0 hs
    obtain ⟨eP, fP, hP⟩ :=
      shape_stagePlacements env spec (o, ([] : List (Outfit × EquipResult)))
    have hZr : (stageModes spec (stageStatic spec
        (stagePlacements env spec (o, ([] : List (Outfit × EquipResult)))))).1.riders =
        o.riders := by
      rw [fst_stageModes, fst_stageStatic, hP]
      cases spec.modes <;> rfl
    have h1 := ridersExt_stageRiders env spec
      (stageModes spec (stageStatic spec (stagePlacements env spec (o, [])))) sl f0
      (by rw [hZr]; exact hs)
    have h2 : (equipSpecLog env o spec).1.riders =
        (stageRiders env spec (stageModes spec (stageStatic spec
          (stagePlacements env spec (o, []))))).1.riders := by
      unfold equipSpecLog
      rw [fst_stageHooks, fst_stageBonuses]
      cases spec.bonuses <;> rfl
    rw [h2]
    exact h1
  · rw [hfields]
  · rw [hfields]
  · rw [hfields]
  · rw [hfields]
  · rw [hfields]
  · rw [hfields]
  · rw [hfields]

/-- Witness for C5 at a concrete spec whose hat entry is satisfiable and
whose weapon entry is not: the overall merge fails, yet the avoid list is
merged and the hat placement stays committed. -/
theorem c5_witness :
    (Outfit.equipSpec envW outfitW specW).2.success = false ∧
    (equipSpecLog envW outfitW specW).1.avoid = [⟨6⟩] ∧
    alGet (equipSpecLog envW outfitW specW).1.equips Slot.hat = some ⟨1⟩ := by
  have hc5 := c5_equipSpec_nonatomic envW outfitW specW
  refine ⟨?_, ?_, ?_⟩
  · apply Bool.eq_false_iff.mpr
    intro htrue
    exact absurd (hc5.2.1.mp htrue) (by decide)
  · exact (hc5.2.2.2.2.2.1).trans (by decide)
  · exact hc5.2.2.1 ((equipSpecLog envW outfitW specW).2.get ⟨0, by decide⟩)
      (List.get_mem _ 0 (by decide)) Slot.hat ⟨1⟩ (by decide)

end Grimoire
